import Mathlib

/-!
# CitasGOB: appointment-booking backend (`main.go`)

A shallow embedding of the Go program: the `Cita` record, `initDB`, `addCita`,
`handleAddCita` and `main`, together with models of the library behaviour the
program relies on: the `time` package (RFC 3339 formatting, `time.Parse` with its
fast path and its layout-driven fall-back, `Time.MarshalJSON` and
`Time.UnmarshalJSON`), `encoding/json` (the scanner, decoding into `Cita`, and the
failure of `Encode`), the `database/sql` driver interface with its driver registry,
and SQLite's `AUTOINCREMENT` / `NOT NULL` semantics.
-/

namespace CitasGOB

/-! ## The `time` package: calendar arithmetic

The functions below follow the Go standard library (`time/time.go`, `time/format.go`,
`time/format_rfc3339.go`). Go computes on `uint64` / `int`; the integers here are unbounded,
which agrees with Go wherever no 64-bit overflow occurs, in particular for all years
0 to 9999 that RFC 3339 text can denote. -/

/-- Seconds in a day (`secondsPerDay`). -/
def secondsPerDay : Int := 86400

/-- Seconds in an hour (`secondsPerHour`). -/
def secondsPerHour : Int := 3600

/-- Seconds in a minute (`secondsPerMinute`). -/
def secondsPerMinute : Int := 60

/-- Days in a 400-year Gregorian cycle (`daysPer400Years`). -/
def daysPer400Years : Int := 365 * 400 + 97

/-- Days in a 100-year cycle without its closing leap day (`daysPer100Years`). -/
def daysPer100Years : Int := 365 * 100 + 24

/-- Days in a 4-year cycle (`daysPer4Years`). -/
def daysPer4Years : Int := 365 * 4 + 1

/-- Year of the absolute epoch used by the `time` package (`absoluteZeroYear`). -/
def absoluteZeroYear : Int := -292277022399

/-- Offset from absolute seconds to seconds since January 1 of year 1
(`absoluteToInternal`, i.e. `(absoluteZeroYear - 1) * 365.2425 * secondsPerDay`). -/
def absoluteToInternal : Int := -9223371966579724800

/-- Offset from seconds since year 1 to absolute seconds (`internalToAbsolute`). -/
def internalToAbsolute : Int := 9223371966579724800

/-- Go integer division truncates toward zero; the divisor is positive wherever it is used. -/
def goDiv (a b : Int) : Int := if a < 0 then -((-a) / b) else a / b

/-- A `time.Time` value: the instant (seconds since January 1 of year 1, 00:00:00 UTC,
plus nanoseconds) and the offset east of UTC that its `Location` has at that instant. -/
structure Time where
  sec : Int
  nsec : Int
  offset : Int
deriving DecidableEq, Repr

/-- The zero `time.Time` (January 1, year 1, 00:00:00 UTC). -/
def Time.zero : Time := ⟨0, 0, 0⟩

instance : Inhabited Time := ⟨Time.zero⟩

/-- `Time.IsZero`: the instant is January 1, year 1, 00:00:00 UTC. -/
def Time.IsZero (t : Time) : Bool := t.sec == 0 && t.nsec == 0

/-- `isLeap`: Gregorian leap-year test. -/
def isLeap (year : Int) : Bool := year % 4 == 0 && (year % 100 != 0 || year % 400 == 0)

/-- The `daysBefore` table: days in a non-leap year before each month begins. -/
def daysBeforeTable : List Int := [0, 31, 59, 90, 120, 151, 181, 212, 243, 273, 304, 334, 365]

/-- Lookup `daysBefore[i]`. -/
def daysBefore (i : Int) : Int := daysBeforeTable.getD i.toNat 0

/-- `daysIn`: number of days in month `m` of `year`. -/
def daysIn (m year : Int) : Int :=
  if m == 2 && isLeap year then 29 else daysBefore m - daysBefore (m - 1)

/-- `daysSinceEpoch`: days from the absolute epoch to January 1 of `year`. -/
def daysSinceEpoch (year : Int) : Int :=
  let y := year - absoluteZeroYear
  let n := y / 400
  let y := y - 400 * n
  let d := daysPer400Years * n
  let n := y / 100
  let y := y - 100 * n
  let d := d + daysPer100Years * n
  let n := y / 4
  let y := y - 4 * n
  let d := d + daysPer4Years * n
  let n := y
  d + 365 * n

/-- `norm`: carries `lo` into `hi` so that `0 ≤ lo < base`. -/
def norm (hi lo base : Int) : Int × Int :=
  let (hi, lo) :=
    if lo < 0 then
      let n := (-lo - 1) / base + 1
      (hi - n, lo + n * base)
    else (hi, lo)
  if lo ≥ base then
    let n := lo / base
    (hi + n, lo - n * base)
  else (hi, lo)

/-- `time.Date(year, month, day, hour, min, sec, nsec, time.UTC)`. -/
def Date (year month day hour min sec nsec : Int) : Time :=
  let m := month - 1
  let (year, m) := norm year m 12
  let month := m + 1
  let (sec, nsec) := norm sec nsec 1000000000
  let (min, sec) := norm min sec 60
  let (hour, min) := norm hour min 60
  let (day, hour) := norm day hour 24
  let d := daysSinceEpoch year
  let d := d + daysBefore (month - 1)
  let d := if isLeap year && month ≥ 3 then d + 1 else d
  let d := d + (day - 1)
  let abs := d * secondsPerDay
  let abs := abs + (hour * secondsPerHour + min * secondsPerMinute + sec)
  ⟨abs + absoluteToInternal, nsec, 0⟩

/-- The month and day of month for a zero-based day of year `day` (the tail of `absDate`). -/
def absDateMonthDay (year day : Int) : Int × Int :=
  if isLeap year && day == 31 + 29 - 1 then (2, 29)
  else
    let day := if isLeap year && day > 31 + 29 - 1 then day - 1 else day
    let month := day / 31
    let e := daysBefore (month + 1)
    let (month, begin) := if day ≥ e then (month + 1, e) else (month, daysBefore month)
    (month + 1, day - begin + 1)

/-- `absDate`: year, month, day and zero-based day of year of an absolute time. -/
def absDate (abs : Int) : Int × Int × Int × Int :=
  let d := abs / secondsPerDay
  let n := d / daysPer400Years
  let y := 400 * n
  let d := d - daysPer400Years * n
  let n := d / daysPer100Years
  let n := n - n / 4
  let y := y + 100 * n
  let d := d - daysPer100Years * n
  let n := d / daysPer4Years
  let y := y + 4 * n
  let d := d - daysPer4Years * n
  let n := d / 365
  let n := n - n / 4
  let y := y + n
  let d := d - 365 * n
  let year := y + absoluteZeroYear
  let md := absDateMonthDay year d
  (year, md.1, md.2, d)

/-- `absClock`: hour, minute and second within the day of an absolute time. -/
def absClock (abs : Int) : Int × Int × Int :=
  let sec := abs % secondsPerDay
  let hour := sec / secondsPerHour
  let sec := sec - hour * secondsPerHour
  let min := sec / secondsPerMinute
  let sec := sec - min * secondsPerMinute
  (hour, min, sec)

/-- `Time.abs`: the absolute time as seen in the value's location. -/
def Time.abs (t : Time) : Int := t.sec + t.offset + internalToAbsolute

/-! ## The `time` package: RFC 3339 text -/

/-- The decimal digit character for `n` in `0..9`. -/
def digitChar (n : Int) : Char := Char.ofNat (48 + n.toNat)

/-- Decimal digits of a natural number, most significant first. -/
def natDigits (n : Nat) : List Char := Nat.toDigits 10 n

/-- `appendInt`: appends the decimal form of `x`, zero-padded to `width`. -/
def appendInt (b : List Char) (x : Int) (width : Nat) : List Char :=
  let (b, u) := if x < 0 then (b ++ ['-'], -x) else (b, x)
  if width == 2 && u < 100 then
    b ++ [digitChar (u / 10), digitChar (u % 10)]
  else if width == 4 && u < 10000 then
    b ++ [digitChar (u / 1000), digitChar (u / 100 % 10), digitChar (u / 10 % 10), digitChar (u % 10)]
  else
    let ds := natDigits u.toNat
    b ++ List.replicate (width - ds.length) '0' ++ ds

/-- `appendNano` for the layout element `.999999999` of `time.RFC3339Nano`: nothing for a zero
fraction, otherwise the period and nine digits with the trailing zeros trimmed. -/
def appendNano (b : List Char) (nanosec : Int) : List Char :=
  if nanosec == 0 then b
  else
    let b := appendInt (b ++ ['.']) nanosec 9
    let b := (b.reverse.dropWhile (fun c => c == '0')).reverse
    match b.reverse with
    | '.' :: rest => rest.reverse
    | _ => b

/-- `Time.appendFormatRFC3339`: the layouts `time.RFC3339` (`nanos = false`) and
`time.RFC3339Nano` (`nanos = true`). -/
def appendFormatRFC3339 (t : Time) (b : List Char) (nanos : Bool) : List Char :=
  let abs := t.abs
  let (year, month, day, _) := absDate abs
  let b := appendInt b year 4
  let b := b ++ ['-']
  let b := appendInt b month 2
  let b := b ++ ['-']
  let b := appendInt b day 2
  let b := b ++ ['T']
  let (hour, min, sec) := absClock abs
  let b := appendInt b hour 2
  let b := b ++ [':']
  let b := appendInt b min 2
  let b := b ++ [':']
  let b := appendInt b sec 2
  let b := if nanos then appendNano b t.nsec else b
  if t.offset == 0 then b ++ ['Z']
  else
    let zone := goDiv t.offset 60
    let (b, zone) := if zone < 0 then (b ++ ['-'], -zone) else (b ++ ['+'], zone)
    let b := appendInt b (zone / 60) 2
    let b := b ++ [':']
    appendInt b (zone % 60) 2

/-- `t.Format(time.RFC3339)`. -/
def Time.FormatRFC3339 (t : Time) : String := String.mk (appendFormatRFC3339 t [] false)

/-- The closure `num2` of `appendStrictRFC3339`: two digits read as a byte value. -/
def num2 (b0 b1 : Char) : Nat := (10 * ((b0.toNat + 256 - 48) % 256) + (b1.toNat + 256 - 48) % 256) % 256

/-- `Time.appendStrictRFC3339`: the `RFC3339Nano` text, and an error when the year is not
four digits wide or, for a zone other than `Z`, the zone hour is not in 00 to 23. The indices
`len(b)-1`, `len(b)-4`, `len(b)-5` and `len(b)-6` of the Go code are read off the reversed
text. -/
def appendStrictRFC3339 (t : Time) (b : List Char) : List Char × Option String :=
  let n0 := b.length
  let b := appendFormatRFC3339 t b true
  if b.getD (n0 + 4) ' ' ≠ '-' then (b, some "year outside of range [0,9999]")
  else
    match b.reverse with
    | l1 :: _ :: _ :: l4 :: l5 :: l6 :: _ =>
      if l1 ≠ 'Z' ∧ (('0' ≤ l6 ∧ l6 ≤ '9') ∨ num2 l5 l4 ≥ 24) then
        (b, some "timezone hour outside of range [0,23]")
      else (b, none)
    | _ => (b, none)

/-- `Time.MarshalJSON`: the quoted strict RFC 3339 text, or the error. -/
def Time.MarshalJSON (t : Time) : Except String String :=
  match appendStrictRFC3339 t ['"'] with
  | (b, none) => .ok (String.mk (b ++ ['"']))
  | (_, some err) => .error ("Time.MarshalJSON: " ++ err)

/-- `isDigit`-style test on one character. -/
def isDigitChar (c : Char) : Bool := decide ('0' ≤ c) && decide (c ≤ '9')

/-- The digit loop of `parseUint`: fails on a non-digit, otherwise accumulates base 10. -/
def parseDigits : List Char → Int → Option Int
  | [], x => some x
  | c :: cs, x => if isDigitChar c then parseDigits cs (x * 10 + ((c.toNat : Int) - 48)) else none

/-- The `parseUint` closure of `parseRFC3339`: an unsigned decimal within `[min, max]`. -/
def parseUint (s : List Char) (min max : Int) : Option Int :=
  match parseDigits s 0 with
  | some x => if x < min ∨ max < x then none else some x
  | none => none

/-- `parseNanoseconds` on the digits that follow the period: at most nine are used,
scaled to nanoseconds. -/
def parseNanoseconds (digits : List Char) : Int :=
  let ds := digits.take 9
  match parseDigits ds 0 with
  | some ns => ns * 10 ^ (9 - ds.length)
  | none => 0

/-- The fractional-second step of `parseRFC3339`: consumes `.` and the digits after it
when at least one digit follows; returns the nanoseconds and the remaining text. -/
def parseFraction (s : List Char) : Int × List Char :=
  match s with
  | '.' :: c :: cs =>
    if isDigitChar c then
      let ds := (c :: cs).takeWhile isDigitChar
      (parseNanoseconds ds, (c :: cs).dropWhile isDigitChar)
    else (0, s)
  | _ => (0, s)

/-- The time-zone step of `parseRFC3339`: `Z` keeps UTC, otherwise `±hh:mm`. -/
def parseZone (t : Time) (s : List Char) : Option Time :=
  match s with
  | ['Z'] => some t
  | [sg, h0, h1, c, m0, m1] =>
    match parseUint [h0, h1] 0 23, parseUint [m0, m1] 0 59 with
    | some hr, some mm =>
      if (sg = '-' ∨ sg = '+') ∧ c = ':' then
        let zoneOffset := (hr * 60 + mm) * 60
        let zoneOffset := if sg = '-' then -zoneOffset else zoneOffset
        some ⟨t.sec - zoneOffset, t.nsec, zoneOffset⟩
      else none
    | _, _ => none
  | _ => none

/-- `parseRFC3339`: the fast path that `time.Parse(time.RFC3339, _)` and
`parseStrictRFC3339` try first; it takes the strict RFC 3339 form only. The `ok` flag that
the Go code clears on a bad field is the `Option` here; the slices `s[0:4]`, `s[5:7]`, ...
are the pattern variables. A zone other than `Z` yields the local or a fixed location, in
both cases with the parsed offset. -/
def parseRFC3339 (s : List Char) : Option Time :=
  match s with
  | y0 :: y1 :: y2 :: y3 :: c4 :: m0 :: m1 :: c7 :: d0 :: d1 :: c10 ::
      h0 :: h1 :: c13 :: n0 :: n1 :: c16 :: s0 :: s1 :: rest =>
    match parseUint [y0, y1, y2, y3] 0 9999, parseUint [m0, m1] 1 12 with
    | some year, some month =>
      match parseUint [d0, d1] 1 (daysIn month year), parseUint [h0, h1] 0 23,
          parseUint [n0, n1] 0 59, parseUint [s0, s1] 0 59 with
      | some day, some hour, some min, some sec =>
        if c4 = '-' ∧ c7 = '-' ∧ c10 = 'T' ∧ c13 = ':' ∧ c16 = ':' then
          let (nsec, rest) := parseFraction rest
          parseZone (Date year month day hour min sec nsec) rest
        else none
      | _, _, _, _ => none
    | _, _ => none
  | _ => none

/-- `atoi`: an optional sign and decimal digits, nothing else. -/
def atoi (s : List Char) : Option Int :=
  match s with
  | [] => parseDigits [] 0
  | c :: ds =>
    if c = '-' then (parseDigits ds 0).map (fun q => -q)
    else if c = '+' then parseDigits ds 0
    else parseDigits (c :: ds) 0

/-- `getnum`: a one- or two-digit number at the head of `s`; with `fixed`, exactly two
digits. -/
def getnum (s : List Char) (fixed : Bool) : Option (Int × List Char) :=
  match s with
  | [] => none
  | c0 :: rest =>
    if isDigitChar c0 then
      match rest with
      | [] => if fixed then none else some ((c0.toNat : Int) - 48, rest)
      | c1 :: rest1 =>
        if isDigitChar c1 then
          some (((c0.toNat : Int) - 48) * 10 + ((c1.toNat : Int) - 48), rest1)
        else if fixed then none
        else some ((c0.toNat : Int) - 48, rest)
    else none

/-- `skip` for a one-character literal of the layout (`-`, `T`, `:`). -/
def skip (value : List Char) (lit : Char) : Option (List Char) :=
  match value with
  | c :: rest => if c = lit then some rest else none
  | [] => none

/-- The layout element `2006` (`stdLongYear`): four characters, the first a digit, read by
`atoi`. -/
def parseLongYear (value : List Char) : Option (Int × List Char) :=
  match value with
  | y0 :: y1 :: y2 :: y3 :: rest =>
    if isDigitChar y0 then
      match atoi [y0, y1, y2, y3] with
      | some year => some (year, rest)
      | none => none
    else none
  | _ => none

/-- The fractional second that `parse` accepts after the seconds although the layout has
none: a period or a comma followed by at least one digit. -/
def parseFractionAny (value : List Char) : Int × List Char :=
  match value with
  | c :: d :: ds =>
    if (c = '.' ∨ c = ',') ∧ isDigitChar d = true then
      (parseNanoseconds ((d :: ds).takeWhile isDigitChar), (d :: ds).dropWhile isDigitChar)
    else (0, value)
  | _ => (0, value)

/-- The layout element `Z07:00` (`stdISO8601ColonTZ`): `Z` for UTC (`none`), or a sign, two
digits, a colon and two digits. The range test uses `>` and so lets an hour of 24 and a
minute of 60 pass. -/
def parseColonTZ (value : List Char) : Option (Option Int × List Char) :=
  match value with
  | [] => none
  | sign :: tail =>
    if sign = 'Z' then some (none, tail)
    else
      match tail with
      | h0 :: h1 :: c :: m0 :: m1 :: rest =>
        if c ≠ ':' then none
        else
          match getnum [h0, h1] true, getnum [m0, m1] true with
          | some (hr, _), some (mm, _) =>
            if hr > 24 ∨ mm > 60 then none
            else
              let zoneOffset := (hr * 60 + mm) * 60 + 0
              if sign = '+' then some (some zoneOffset, rest)
              else if sign = '-' then some (some (-zoneOffset), rest)
              else none
          | _, _ => none
      | _ => none

/-- The date and clock elements `2006-01-02T15:04:05` of `parse`, with the range tests made
while reading (month, hour, minute, second); the day is tested at the end of `parse`. The
hour element `15` takes one or two digits. -/
def parseDateClock (value : List Char) : Option (Int × Int × Int × Int × Int × Int × List Char) :=
  match parseLongYear value with
  | none => none
  | some (year, value) =>
    match skip value '-' with
    | none => none
    | some value =>
      match getnum value true with
      | none => none
      | some (month, value) =>
        if month ≤ 0 ∨ 12 < month then none
        else
          match skip value '-' with
          | none => none
          | some value =>
            match getnum value true with
            | none => none
            | some (day, value) =>
              match skip value 'T' with
              | none => none
              | some value =>
                match getnum value false with
                | none => none
                | some (hour, value) =>
                  if hour < 0 ∨ 24 ≤ hour then none
                  else
                    match skip value ':' with
                    | none => none
                    | some value =>
                      match getnum value true with
                      | none => none
                      | some (min, value) =>
                        if min < 0 ∨ 60 ≤ min then none
                        else
                          match skip value ':' with
                          | none => none
                          | some value =>
                            match getnum value true with
                            | none => none
                            | some (sec, value) =>
                              if sec < 0 ∨ 60 ≤ sec then none
                              else some (year, month, day, hour, min, sec, value)

/-- `parse(RFC3339, value, UTC, Local)`: the layout-driven parser of the `time` package,
unrolled over the elements of the layout `2006-01-02T15:04:05Z07:00`. Every error is `none`.
A zone offset yields the local or a fixed location, in both cases with the parsed offset. -/
def parse (value : List Char) : Option Time :=
  match parseDateClock value with
  | none => none
  | some (year, month, day, hour, min, sec, value) =>
    match parseColonTZ (parseFractionAny value).2 with
    | none => none
    | some (z, rest) =>
      if rest ≠ [] then none
      else if day < 1 ∨ day > daysIn month year then none
      else
        let t := Date year month day hour min sec (parseFractionAny value).1
        match z with
        | none => some t
        | some zoneOffset => some ⟨t.sec - zoneOffset, t.nsec, zoneOffset⟩

/-- `time.Parse(time.RFC3339, value)` on a list of characters: the RFC 3339 fast path, and
when that fails the layout-driven `parse`. -/
def Parse (value : List Char) : Option Time :=
  match parseRFC3339 value with
  | some t => some t
  | none => parse value

/-- `time.Parse(time.RFC3339, value)`. -/
def Time.ParseRFC3339 (value : String) : Option Time := Parse value.data

/-- The bytes of the UTF-8 encoding of a character. -/
def utf8Bytes (c : Char) : List Nat :=
  let n := c.toNat
  if n < 0x80 then [n]
  else if n < 0x800 then [0xC0 + n / 64, 0x80 + n % 64]
  else if n < 0x10000 then [0xE0 + n / 4096, 0x80 + n / 64 % 64, 0x80 + n % 64]
  else [0xF0 + n / 262144, 0x80 + n / 4096 % 64, 0x80 + n / 64 % 64, 0x80 + n % 64]

/-- The table `lowerhex`. -/
def lowerhex (n : Nat) : Char := "0123456789abcdef".data.getD n '0'

/-- `quote` of the `time` package: the text between double quotes, a quote or backslash
escaped with a backslash, and every byte of a control or non-ASCII character written
`\xhh`. -/
def quote (s : List Char) : List Char :=
  ['"'] ++ s.flatMap (fun c =>
    if c.toNat ≥ 0x80 ∨ c.toNat < 0x20 then
      (utf8Bytes c).flatMap (fun b => ['\\', 'x', lowerhex (b / 16), lowerhex (b % 16)])
    else if c = '"' ∨ c = '\\' then ['\\', c]
    else [c]) ++ ['"']

/-- The layout `time.RFC3339`. -/
def RFC3339 : String := "2006-01-02T15:04:05Z07:00"

/-- `(*ParseError).Error()` for the layout `RFC3339`: the value, then either the element
that could not be parsed or the message. -/
def newParseError (value : List Char) (layoutElem : String) (valueElem : List Char)
    (message : String) : String :=
  if message = "" then
    "parsing time " ++ String.mk (quote value) ++ " as " ++ String.mk (quote RFC3339.data) ++
      ": cannot parse " ++ String.mk (quote valueElem) ++ " as " ++
      String.mk (quote layoutElem.data)
  else "parsing time " ++ String.mk (quote value) ++ message

/-- The range message of the zone element of `parse`: the hour is tested first, then the
minute, and the later test overwrites the earlier message. -/
def zoneRangeErr (hr mm : Int) : Option String :=
  if mm > 60 then some "time zone offset minute"
  else if hr > 24 then some "time zone offset hour"
  else none

/-- The error of the zone element `Z07:00` of `parse` on the text `hold`, if it has one: a
range message, or the element itself as the text that cannot be parsed. -/
def zoneError (avalue hold : List Char) : Option String :=
  match hold with
  | [] => some (newParseError avalue "Z07:00" hold "")
  | sign :: tail =>
    if sign = 'Z' then none
    else
      match tail with
      | h0 :: h1 :: c :: m0 :: m1 :: _ =>
        if c ≠ ':' then some (newParseError avalue "Z07:00" hold "")
        else
          match getnum [h0, h1] true with
          | none => some (newParseError avalue "Z07:00" hold "")
          | some (hr, _) =>
            match getnum [m0, m1] true with
            | none =>
              if hr > 24 then
                some (newParseError avalue "Z07:00" hold ": time zone offset hour out of range")
              else some (newParseError avalue "Z07:00" hold "")
            | some (mm, _) =>
              match zoneRangeErr hr mm with
              | some what => some (newParseError avalue "Z07:00" hold (": " ++ what ++ " out of range"))
              | none =>
                if sign = '+' ∨ sign = '-' then none
                else some (newParseError avalue "Z07:00" hold "")
      | _ => some (newParseError avalue "Z07:00" hold "")

/-- The error that `parse(RFC3339, value, UTC, Local)` returns on a value it rejects: `parse`
stops at the first element of the layout that fails, and reports the layout element with the
text that was left, or a range message; after the last element it reports left-over text, and
then a day that the month does not have. (On a value that `parse` accepts the result is the
empty text.) -/
def parseError (avalue : List Char) : String :=
  match parseLongYear avalue with
  | none => newParseError avalue "2006" avalue ""
  | some (year, value) =>
    match skip value '-' with
    | none => newParseError avalue "-" value ""
    | some value =>
      match getnum value true with
      | none => newParseError avalue "01" value ""
      | some (month, value) =>
        if month ≤ 0 ∨ 12 < month then newParseError avalue "01" value ": month out of range"
        else
          match skip value '-' with
          | none => newParseError avalue "-" value ""
          | some value =>
            match getnum value true with
            | none => newParseError avalue "02" value ""
            | some (day, value) =>
              match skip value 'T' with
              | none => newParseError avalue "T" value ""
              | some value =>
                match getnum value false with
                | none => newParseError avalue "15" value ""
                | some (hour, value) =>
                  if hour < 0 ∨ 24 ≤ hour then
                    newParseError avalue "15" value ": hour out of range"
                  else
                    match skip value ':' with
                    | none => newParseError avalue ":" value ""
                    | some value =>
                      match getnum value true with
                      | none => newParseError avalue "04" value ""
                      | some (min, value) =>
                        if min < 0 ∨ 60 ≤ min then
                          newParseError avalue "04" value ": minute out of range"
                        else
                          match skip value ':' with
                          | none => newParseError avalue ":" value ""
                          | some value =>
                            match getnum value true with
                            | none => newParseError avalue "05" value ""
                            | some (sec, value) =>
                              if sec < 0 ∨ 60 ≤ sec then
                                newParseError avalue "05" value ": second out of range"
                              else
                                let hold := (parseFractionAny value).2
                                match zoneError avalue hold with
                                | some e => e
                                | none =>
                                  match parseColonTZ hold with
                                  | none => newParseError avalue "Z07:00" hold ""
                                  | some (_, rest) =>
                                    if rest ≠ [] then
                                      newParseError avalue "" rest
                                        (": extra text: " ++ String.mk (quote rest))
                                    else if day < 1 ∨ day > daysIn month year then
                                      newParseError avalue "" rest ": day out of range"
                                    else ""

/-- `parseStrictRFC3339`: the fast path, else `Parse` with its error; the extra checks that
the Go code lists after `Parse` are switched off there (`case true: return t, nil`), so the
result of `Parse` is returned as it is. -/
def parseStrictRFC3339 (b : List Char) : Except String Time :=
  match parseRFC3339 b with
  | some t => .ok t
  | none =>
    match Parse b with
    | some t => .ok t
    | none => .error (parseError b)

/-- `(*Time).UnmarshalJSON(data)` on the time `t`: `null` leaves `t` as it is; anything that
is not enclosed in double quotes is refused; the text between the quotes is parsed as it
stands (JSON escapes are not interpreted). -/
def Time.UnmarshalJSON (t : Time) (data : List Char) : Except String Time :=
  if data = ['n', 'u', 'l', 'l'] then .ok t
  else if data.length < 2 ∨ data.head? ≠ some '"' ∨ data.getLast? ≠ some '"' then
    .error "Time.UnmarshalJSON: input is not a JSON string"
  else parseStrictRFC3339 (data.drop 1).dropLast

/-! ## Proof-side description of parsed times -/

/-- Zero-based day of the year of a calendar date. -/
def ydayOf (year month day : Int) : Int :=
  daysBefore (month - 1) + (if isLeap year = true ∧ 3 ≤ month then 1 else 0) + (day - 1)

/-- Calendar fields and zone offset as read by `parseRFC3339` and `parse`. -/
structure Civil where
  year : Int
  month : Int
  day : Int
  hour : Int
  min : Int
  sec : Int
  zhour : Int
  zmin : Int
  zneg : Bool

/-- Range conditions on the fields: those of the calendar and the clock, a zone hour of at
most `zmax` (23 for the RFC 3339 fast path, 24 for the layout-driven parser) and a zone
minute of at most 59. -/
def Civil.Valid (c : Civil) (zmax : Int) : Prop :=
  0 ≤ c.year ∧ c.year ≤ 9999 ∧ 1 ≤ c.month ∧ c.month ≤ 12 ∧ 1 ≤ c.day ∧
  c.day ≤ daysIn c.month c.year ∧ 0 ≤ c.hour ∧ c.hour ≤ 23 ∧ 0 ≤ c.min ∧ c.min ≤ 59 ∧
  0 ≤ c.sec ∧ c.sec ≤ 59 ∧ 0 ≤ c.zhour ∧ c.zhour ≤ zmax ∧ 0 ≤ c.zmin ∧ c.zmin ≤ 59

instance (c : Civil) (zmax : Int) : Decidable (c.Valid zmax) := by
  unfold Civil.Valid
  infer_instance

/-- Zone offset in seconds east of UTC. -/
def Civil.zoneOffset (c : Civil) : Int :=
  if c.zneg then -((c.zhour * 60 + c.zmin) * 60) else (c.zhour * 60 + c.zmin) * 60

/-- The `time.Time` that the fields denote, with the given nanoseconds. -/
def Civil.toTime (c : Civil) (nsec : Int) : Time :=
  ⟨(Date c.year c.month c.day c.hour c.min c.sec nsec).sec - c.zoneOffset, nsec, c.zoneOffset⟩

/-- The date and clock text `2006-01-02T15:04:05` that `appendFormatRFC3339` writes for the
fields. -/
def Civil.dateText (c : Civil) : List Char :=
  [digitChar (c.year / 1000), digitChar (c.year / 100 % 10), digitChar (c.year / 10 % 10),
   digitChar (c.year % 10), '-', digitChar (c.month / 10), digitChar (c.month % 10), '-',
   digitChar (c.day / 10), digitChar (c.day % 10), 'T', digitChar (c.hour / 10),
   digitChar (c.hour % 10), ':', digitChar (c.min / 10), digitChar (c.min % 10), ':',
   digitChar (c.sec / 10), digitChar (c.sec % 10)]

/-- The zone suffix that `appendFormatRFC3339` writes for the fields. -/
def Civil.zoneText (c : Civil) : List Char :=
  if c.zoneOffset = 0 then ['Z']
  else [if c.zneg then '-' else '+', digitChar (c.zhour / 10), digitChar (c.zhour % 10), ':',
    digitChar (c.zmin / 10), digitChar (c.zmin % 10)]

/-! ## The program: data model -/

/-- The `Cita` struct. -/
structure Cita where
  ID : Int
  Tramite : String
  Institucion : String
  Nombres : String
  Apellidos : String
  Telefono : String
  CorreoElectronico : String
  Cedula : String
  Direccion : String
  FechaCita : Time
deriving DecidableEq, Repr

/-- The zero value of `Cita` (`var newCita Cita`). -/
def Cita.zero : Cita := ⟨0, "", "", "", "", "", "", "", "", Time.zero⟩

instance : Inhabited Cita := ⟨Cita.zero⟩

/-- The constant `dbFileName`. -/
def dbFileName : String := "citas.db"

/-- The statement `createTableSQL` of `initDB`. -/
def createTableSQL : String :=
  "\n\tCREATE TABLE IF NOT EXISTS citas (\n\t\tid INTEGER PRIMARY KEY AUTOINCREMENT,\n\t\ttramite TEXT NOT NULL,\n\t\tinstitucion TEXT NOT NULL,\n\t\tnombres TEXT NOT NULL,\n\t\tapellidos TEXT NOT NULL,\n\t\ttelefono TEXT NOT NULL,\n\t\tcorreo_electronico TEXT NOT NULL,\n\t\tcedula TEXT NOT NULL,\n\t\tdireccion TEXT NOT NULL, -- Agregado para coincidir con la UI\n\t\tfecha_cita TEXT NOT NULL -- Guardamos la fecha como TEXT en formato ISO8601\n\t);"

/-- The statement `insertSQL` of `addCita`. -/
def insertSQL : String :=
  "\n\tINSERT INTO citas (\n\t\ttramite, institucion, nombres, apellidos, telefono,\n\t\tcorreo_electronico, cedula, direccion, fecha_cita\n\t) VALUES (?, ?, ?, ?, ?, ?, ?, ?, ?);"

/-! ## `encoding/json`: the scanner

The request body is a Lean `String`, that is, valid UTF-8. The scanner of `encoding/json` works
on bytes; every byte it tests for is ASCII, so it is run here on characters, and the byte it
names in an error is the first byte of the character. -/

/-- `isSpace`. -/
def isSpace (c : Char) : Bool := c == ' ' || c == '\t' || c == '\r' || c == '\n'

/-- `quoteChar(c)` for the byte `b`: the byte between single quotes, written as
`strconv.Quote` writes the character with that code. -/
def quoteChar (b : Nat) : String :=
  if b = 39 then "\x27\\\x27\x27"
  else if b = 34 then "\x27\"\x27"
  else
    let s : String :=
      if b = 7 then "\\a" else if b = 8 then "\\b" else if b = 12 then "\\f"
      else if b = 10 then "\\n" else if b = 13 then "\\r" else if b = 9 then "\\t"
      else if b = 11 then "\\v" else if b = 92 then "\\\\"
      else if b < 32 ∨ b = 127 then "\\x" ++ String.mk [lowerhex (b / 16), lowerhex (b % 16)]
      else if (128 ≤ b ∧ b ≤ 160) ∨ b = 173 then
        "\\u00" ++ String.mk [lowerhex (b / 16), lowerhex (b % 16)]
      else String.mk [Char.ofNat b]
    "\x27" ++ s ++ "\x27"

/-- The states of the scanner: the functions that `scanner.step` can hold. -/
inductive ScanStep where
  | stateBeginValueOrEmpty
  | stateBeginValue
  | stateBeginStringOrEmpty
  | stateBeginString
  | stateEndValue
  | stateEndTop
  | stateInString
  | stateInStringEsc
  | stateInStringEscU
  | stateInStringEscU1
  | stateInStringEscU12
  | stateInStringEscU123
  | stateNeg
  | state1
  | state0
  | stateDot
  | stateDot0
  | stateE
  | stateESign
  | stateE0
  | stateT
  | stateTr
  | stateTru
  | stateF
  | stateFa
  | stateFal
  | stateFals
  | stateN
  | stateNu
  | stateNul
  | stateError
deriving DecidableEq, Repr

/-- The entries of the scanner stack `parseState`. -/
inductive ParseState where
  | parseObjectKey
  | parseObjectValue
  | parseArrayValue
deriving DecidableEq, Repr

/-- The op codes returned by the state functions. -/
inductive ScanOp where
  | scanContinue
  | scanBeginLiteral
  | scanBeginObject
  | scanObjectKey
  | scanObjectValue
  | scanEndObject
  | scanBeginArray
  | scanArrayValue
  | scanEndArray
  | scanSkipSpace
  | scanEnd
  | scanError
deriving DecidableEq, Repr

/-- The `scanner` struct: the current state function, the stack of what is being parsed
(innermost first), and the error that made the scanner stop. -/
structure scanner where
  step : ScanStep
  parseState : List ParseState
  err : Option String
deriving DecidableEq, Repr

/-- `maxNestingDepth`. -/
def maxNestingDepth : Nat := 10000

/-- `scanner.reset`. -/
def scanner.reset : scanner := ⟨.stateBeginValue, [], none⟩

/-- `scanner.error`: records a syntax error that names the offending byte. -/
def scanner.error (s : scanner) (c : Char) (context : String) : scanner × ScanOp :=
  ({ s with step := .stateError,
            err := some ("invalid character " ++ quoteChar ((utf8Bytes c).headD 0) ++ " " ++
              context) },
    .scanError)

/-- `scanner.pushParseState`. -/
def scanner.pushParseState (s : scanner) (newParseState : ParseState) (successState : ScanOp) :
    scanner × ScanOp :=
  let s := { s with parseState := newParseState :: s.parseState }
  if s.parseState.length ≤ maxNestingDepth then (s, successState)
  else ({ s with step := .stateError, err := some "exceeded max depth" }, .scanError)

/-- `scanner.popParseState`. -/
def scanner.popParseState (s : scanner) : scanner :=
  let rest := s.parseState.tail
  if rest.length = 0 then { s with parseState := rest, step := .stateEndTop }
  else { s with parseState := rest, step := .stateEndValue }

/-- `stateEndTop`: after the top-level value; a byte that is not a space is recorded as an
error for the next call, and the value ends. -/
def stateEndTop (s : scanner) (c : Char) : scanner × ScanOp :=
  if !isSpace c then ((s.error c "after top-level value").1, .scanEnd) else (s, .scanEnd)

/-- `stateEndValue`. -/
def stateEndValue (s : scanner) (c : Char) : scanner × ScanOp :=
  match s.parseState with
  | [] => stateEndTop { s with step := .stateEndTop } c
  | ps :: rest =>
    if isSpace c then ({ s with step := .stateEndValue }, .scanSkipSpace)
    else
      match ps with
      | .parseObjectKey =>
        if c = ':' then
          ({ s with parseState := .parseObjectValue :: rest, step := .stateBeginValue },
            .scanObjectKey)
        else s.error c "after object key"
      | .parseObjectValue =>
        if c = ',' then
          ({ s with parseState := .parseObjectKey :: rest, step := .stateBeginString },
            .scanObjectValue)
        else if c = '}' then (s.popParseState, .scanEndObject)
        else s.error c "after object key:value pair"
      | .parseArrayValue =>
        if c = ',' then ({ s with step := .stateBeginValue }, .scanArrayValue)
        else if c = ']' then (s.popParseState, .scanEndArray)
        else s.error c "after array element"

/-- `stateBeginValue`. -/
def stateBeginValue (s : scanner) (c : Char) : scanner × ScanOp :=
  if isSpace c then (s, .scanSkipSpace)
  else if c = '{' then
    scanner.pushParseState { s with step := .stateBeginStringOrEmpty } .parseObjectKey
      .scanBeginObject
  else if c = '[' then
    scanner.pushParseState { s with step := .stateBeginValueOrEmpty } .parseArrayValue
      .scanBeginArray
  else if c = '"' then ({ s with step := .stateInString }, .scanBeginLiteral)
  else if c = '-' then ({ s with step := .stateNeg }, .scanBeginLiteral)
  else if c = '0' then ({ s with step := .state0 }, .scanBeginLiteral)
  else if c = 't' then ({ s with step := .stateT }, .scanBeginLiteral)
  else if c = 'f' then ({ s with step := .stateF }, .scanBeginLiteral)
  else if c = 'n' then ({ s with step := .stateN }, .scanBeginLiteral)
  else if '1' ≤ c ∧ c ≤ '9' then ({ s with step := .state1 }, .scanBeginLiteral)
  else s.error c "looking for beginning of value"

/-- `stateBeginValueOrEmpty`: after `[`. -/
def stateBeginValueOrEmpty (s : scanner) (c : Char) : scanner × ScanOp :=
  if isSpace c then (s, .scanSkipSpace)
  else if c = ']' then stateEndValue s c
  else stateBeginValue s c

/-- `stateBeginString`: after a comma in an object. -/
def stateBeginString (s : scanner) (c : Char) : scanner × ScanOp :=
  if isSpace c then (s, .scanSkipSpace)
  else if c = '"' then ({ s with step := .stateInString }, .scanBeginLiteral)
  else s.error c "looking for beginning of object key string"

/-- `stateBeginStringOrEmpty`: after `{`. -/
def stateBeginStringOrEmpty (s : scanner) (c : Char) : scanner × ScanOp :=
  if isSpace c then (s, .scanSkipSpace)
  else if c = '}' then
    stateEndValue { s with parseState := .parseObjectValue :: s.parseState.tail } c
  else stateBeginString s c

/-- `stateInString`. -/
def stateInString (s : scanner) (c : Char) : scanner × ScanOp :=
  if c = '"' then ({ s with step := .stateEndValue }, .scanContinue)
  else if c = '\\' then ({ s with step := .stateInStringEsc }, .scanContinue)
  else if c.toNat < 0x20 then s.error c "in string literal"
  else (s, .scanContinue)

/-- `stateInStringEsc`. -/
def stateInStringEsc (s : scanner) (c : Char) : scanner × ScanOp :=
  if c = 'b' ∨ c = 'f' ∨ c = 'n' ∨ c = 'r' ∨ c = 't' ∨ c = '\\' ∨ c = '/' ∨ c = '"' then
    ({ s with step := .stateInString }, .scanContinue)
  else if c = 'u' then ({ s with step := .stateInStringEscU }, .scanContinue)
  else s.error c "in string escape code"

/-- The test for a hexadecimal digit made by the four `stateInStringEscU` states. -/
def isHex (c : Char) : Bool :=
  ('0' ≤ c && c ≤ '9') || ('a' ≤ c && c ≤ 'f') || ('A' ≤ c && c ≤ 'F')

/-- The states `stateInStringEscU`, `stateInStringEscU1`, `stateInStringEscU12` and
`stateInStringEscU123`, which differ in the state that follows. -/
def stateInStringEscHex (next : ScanStep) (s : scanner) (c : Char) : scanner × ScanOp :=
  if isHex c then ({ s with step := next }, .scanContinue)
  else s.error c "in \\u hexadecimal character escape"

/-- `state0`: after a leading `0` of a number. -/
def state0 (s : scanner) (c : Char) : scanner × ScanOp :=
  if c = '.' then ({ s with step := .stateDot }, .scanContinue)
  else if c = 'e' ∨ c = 'E' then ({ s with step := .stateE }, .scanContinue)
  else stateEndValue s c

/-- `state1`: after a non-zero digit of a number. -/
def state1 (s : scanner) (c : Char) : scanner × ScanOp :=
  if '0' ≤ c ∧ c ≤ '9' then ({ s with step := .state1 }, .scanContinue)
  else state0 s c

/-- `stateNeg`: after the minus sign of a number. -/
def stateNeg (s : scanner) (c : Char) : scanner × ScanOp :=
  if c = '0' then ({ s with step := .state0 }, .scanContinue)
  else if '1' ≤ c ∧ c ≤ '9' then ({ s with step := .state1 }, .scanContinue)
  else s.error c "in numeric literal"

/-- `stateDot`: after the decimal point. -/
def stateDot (s : scanner) (c : Char) : scanner × ScanOp :=
  if '0' ≤ c ∧ c ≤ '9' then ({ s with step := .stateDot0 }, .scanContinue)
  else s.error c "after decimal point in numeric literal"

/-- `stateDot0`: after a digit that follows the decimal point. -/
def stateDot0 (s : scanner) (c : Char) : scanner × ScanOp :=
  if '0' ≤ c ∧ c ≤ '9' then (s, .scanContinue)
  else if c = 'e' ∨ c = 'E' then ({ s with step := .stateE }, .scanContinue)
  else stateEndValue s c

/-- `stateESign`: after the sign of an exponent. -/
def stateESign (s : scanner) (c : Char) : scanner × ScanOp :=
  if '0' ≤ c ∧ c ≤ '9' then ({ s with step := .stateE0 }, .scanContinue)
  else s.error c "in exponent of numeric literal"

/-- `stateE`: after the `e` of an exponent. -/
def stateE (s : scanner) (c : Char) : scanner × ScanOp :=
  if c = '+' ∨ c = '-' then ({ s with step := .stateESign }, .scanContinue)
  else stateESign s c

/-- `stateE0`: after a digit of an exponent. -/
def stateE0 (s : scanner) (c : Char) : scanner × ScanOp :=
  if '0' ≤ c ∧ c ≤ '9' then (s, .scanContinue)
  else stateEndValue s c

/-- The states inside the literals `true`, `false` and `null`: the next letter is `want`, and
`next` is the state after it. -/
def stateLiteral (want : Char) (next : ScanStep) (literal : String) (s : scanner) (c : Char) :
    scanner × ScanOp :=
  if c = want then ({ s with step := next }, .scanContinue)
  else
    s.error c ("in literal " ++ literal ++ " (expecting \x27" ++ String.mk [want] ++ "\x27)")

/-- The call `s.step(s, c)`: runs the state function that the scanner holds. -/
def scanner.apply (s : scanner) (c : Char) : scanner × ScanOp :=
  match s.step with
  | .stateBeginValueOrEmpty => stateBeginValueOrEmpty s c
  | .stateBeginValue => stateBeginValue s c
  | .stateBeginStringOrEmpty => stateBeginStringOrEmpty s c
  | .stateBeginString => stateBeginString s c
  | .stateEndValue => stateEndValue s c
  | .stateEndTop => stateEndTop s c
  | .stateInString => stateInString s c
  | .stateInStringEsc => stateInStringEsc s c
  | .stateInStringEscU => stateInStringEscHex .stateInStringEscU1 s c
  | .stateInStringEscU1 => stateInStringEscHex .stateInStringEscU12 s c
  | .stateInStringEscU12 => stateInStringEscHex .stateInStringEscU123 s c
  | .stateInStringEscU123 => stateInStringEscHex .stateInString s c
  | .stateNeg => stateNeg s c
  | .state1 => state1 s c
  | .state0 => state0 s c
  | .stateDot => stateDot s c
  | .stateDot0 => stateDot0 s c
  | .stateE => stateE s c
  | .stateESign => stateESign s c
  | .stateE0 => stateE0 s c
  | .stateT => stateLiteral 'r' .stateTr "true" s c
  | .stateTr => stateLiteral 'u' .stateTru "true" s c
  | .stateTru => stateLiteral 'e' .stateEndValue "true" s c
  | .stateF => stateLiteral 'a' .stateFa "false" s c
  | .stateFa => stateLiteral 'l' .stateFal "false" s c
  | .stateFal => stateLiteral 's' .stateFals "false" s c
  | .stateFals => stateLiteral 'e' .stateEndValue "false" s c
  | .stateN => stateLiteral 'u' .stateNu "null" s c
  | .stateNu => stateLiteral 'l' .stateNul "null" s c
  | .stateNul => stateLiteral 'l' .stateEndValue "null" s c
  | .stateError => (s, .scanError)

/-- The loop of `(*Decoder).readValue` over the bytes still to read, `n` of them read so
far: it ends at the end of the first JSON value, with the number of bytes that the value
takes, or with the scanner error. At the end of the input the value ends if a space would
end it; otherwise the error is `io.ErrUnexpectedEOF`, or `io.EOF` when the input was only
white space (`nonSpace` false). -/
def readValueLoop (nonSpace : Bool) : scanner → List Char → Nat → Except String Nat
  | s, [], n =>
    match (s.apply ' ').2 with
    | .scanEnd => .ok n
    | _ => .error (if nonSpace then "unexpected EOF" else "EOF")
  | s, c :: cs, n =>
    match s.apply c with
    | (_, .scanEnd) => .ok n
    | (s, .scanEndObject) =>
      match (stateEndValue s ' ').2 with
      | .scanEnd => .ok (n + 1)
      | _ => readValueLoop nonSpace s cs (n + 1)
    | (s, .scanEndArray) =>
      match (stateEndValue s ' ').2 with
      | .scanEnd => .ok (n + 1)
      | _ => readValueLoop nonSpace s cs (n + 1)
    | (s, .scanError) => .error (s.err.getD "")
    | (s, _) => readValueLoop nonSpace s cs (n + 1)

/-- `(*Decoder).readValue` on a body that is read to its end: the length of the first JSON
value (leading white space included), or the error. -/
def readValue (body : List Char) : Except String Nat :=
  readValueLoop (body.any (fun c => !isSpace c)) scanner.reset body 0

/-! ## `encoding/json`: decoding the value into a `Cita`

The text handed over by `readValue` is one well-formed JSON value. It is read into a tree
whose strings and numbers keep their source text, and the tree is stored into the struct as
`(*decodeState).object` and `literalStore` do. -/

/-- A JSON value; strings and numbers keep their source text, and an object member keeps the
source text of its value. -/
inductive JValue where
  | null
  | bool (b : Bool)
  | number (raw : List Char)
  | string (raw : List Char)
  | array (items : List JValue)
  | object (members : List (List Char × JValue × List Char))

/-- Skips JSON white space. -/
def skipSpace : List Char → List Char
  | c :: cs => if isSpace c then skipSpace cs else c :: cs
  | [] => []

/-- Reads a string body up to its closing quote: the raw text and what follows. -/
def scanString : List Char → List Char → Option (List Char × List Char)
  | [], _ => none
  | c :: cs, acc =>
    if c = '"' then some (acc.reverse, cs)
    else if c = '\\' then
      match cs with
      | d :: ds => scanString ds (d :: c :: acc)
      | [] => none
    else scanString cs (c :: acc)

/-- Characters that may occur in a JSON number. -/
def isNumberChar (c : Char) : Bool :=
  ('0' ≤ c && c ≤ '9') || c = '-' || c = '+' || c = '.' || c = 'e' || c = 'E'

mutual
/-- Reads one JSON value of well-formed text. -/
def parseValue : Nat → List Char → Option (JValue × List Char)
  | 0, _ => none
  | fuel + 1, cs =>
    match skipSpace cs with
    | 'n' :: 'u' :: 'l' :: 'l' :: rest => some (.null, rest)
    | 't' :: 'r' :: 'u' :: 'e' :: rest => some (.bool true, rest)
    | 'f' :: 'a' :: 'l' :: 's' :: 'e' :: rest => some (.bool false, rest)
    | '"' :: rest =>
      match scanString rest [] with
      | some (raw, rest) => some (.string raw, rest)
      | none => none
    | '[' :: rest =>
      match skipSpace rest with
      | ']' :: rest => some (.array [], rest)
      | rest =>
        match parseElements fuel rest with
        | some (items, rest) => some (.array items, rest)
        | none => none
    | '{' :: rest =>
      match skipSpace rest with
      | '}' :: rest => some (.object [], rest)
      | rest =>
        match parseMembers fuel rest with
        | some (members, rest) => some (.object members, rest)
        | none => none
    | c :: rest =>
      if c = '-' ∨ ('0' ≤ c ∧ c ≤ '9') then
        some (.number ((c :: rest).takeWhile isNumberChar), (c :: rest).dropWhile isNumberChar)
      else none
    | [] => none
/-- Reads the elements of an array up to its closing bracket. -/
def parseElements : Nat → List Char → Option (List JValue × List Char)
  | 0, _ => none
  | fuel + 1, cs =>
    match parseValue fuel cs with
    | some (v, rest) =>
      match skipSpace rest with
      | ',' :: rest =>
        match parseElements fuel rest with
        | some (vs, rest) => some (v :: vs, rest)
        | none => none
      | ']' :: rest => some ([v], rest)
      | _ => none
    | none => none
/-- Reads the members of an object up to its closing brace. -/
def parseMembers : Nat → List Char → Option (List (List Char × JValue × List Char) × List Char)
  | 0, _ => none
  | fuel + 1, cs =>
    match skipSpace cs with
    | '"' :: rest =>
      match scanString rest [] with
      | some (key, rest) =>
        match skipSpace rest with
        | ':' :: rest =>
          match parseValue fuel rest with
          | some (v, after) =>
            let item := (skipSpace rest).take ((skipSpace rest).length - after.length)
            match skipSpace after with
            | ',' :: rest =>
              match parseMembers fuel rest with
              | some (ms, rest) => some ((key, v, item) :: ms, rest)
              | none => none
            | '}' :: rest => some ([(key, v, item)], rest)
            | _ => none
          | none => none
        | _ => none
      | none => none
    | _ => none
end

/-- Value of a hexadecimal digit. -/
def hexValue (c : Char) : Nat :=
  if '0' ≤ c ∧ c ≤ '9' then c.toNat - 48
  else if 'a' ≤ c ∧ c ≤ 'f' then c.toNat - 87
  else if 'A' ≤ c ∧ c ≤ 'F' then c.toNat - 55
  else 0

/-- A piece of a JSON string: a character (given literally or by a one-letter escape), or the
UTF-16 code unit of a `\uXXXX` escape. -/
inductive StringPiece where
  | char (c : Char)
  | escape (u : Nat)

/-- Splits the source text of a JSON string into its pieces. -/
def stringPieces : List Char → List StringPiece
  | [] => []
  | c :: cs =>
    if c = '\\' then
      match cs with
      | 'u' :: h0 :: h1 :: h2 :: h3 :: rest =>
        .escape (((hexValue h0 * 16 + hexValue h1) * 16 + hexValue h2) * 16 + hexValue h3) ::
          stringPieces rest
      | d :: rest =>
        let e : Char :=
          if d = 'b' then Char.ofNat 8 else if d = 'f' then Char.ofNat 12
          else if d = 'n' then '\n' else if d = 'r' then '\r' else if d = 't' then '\t'
          else d
        .char e :: stringPieces rest
      | [] => []
    else .char c :: stringPieces cs

/-- `unicode.ReplacementChar`. -/
def replacementChar : Char := Char.ofNat 0xFFFD

/-- The `\u` branch of `unquoteBytes` on the pieces of a string: a high surrogate followed at
once by a `\u` escape of a low surrogate is the character of the pair; any other surrogate
is the replacement character. -/
def joinPieces : List StringPiece → List Char
  | [] => []
  | .char c :: rest => c :: joinPieces rest
  | [.escape u] => [if 0xD800 ≤ u ∧ u < 0xE000 then replacementChar else Char.ofNat u]
  | .escape u :: .char c :: rest =>
    (if 0xD800 ≤ u ∧ u < 0xE000 then replacementChar else Char.ofNat u) :: c :: joinPieces rest
  | .escape u :: .escape v :: rest =>
    if 0xD800 ≤ u ∧ u < 0xE000 then
      if u < 0xDC00 ∧ 0xDC00 ≤ v ∧ v < 0xE000 then
        Char.ofNat ((u - 0xD800) * 1024 + (v - 0xDC00) + 0x10000) :: joinPieces rest
      else replacementChar :: joinPieces (.escape v :: rest)
    else Char.ofNat u :: joinPieces (.escape v :: rest)

/-- `unquote` on the source text between the quotes of a JSON string. -/
def unquote (raw : List Char) : List Char := joinPieces (stringPieces raw)

/-- `foldRune` as far as the field names of `Cita` can tell: ASCII letters fold to upper
case, and of the other characters only U+017F (long s) and U+212A (Kelvin sign) fold to an
ASCII letter. -/
def foldRune (r : Char) : Char :=
  if 'a' ≤ r ∧ r ≤ 'z' then Char.ofNat (r.toNat - 32)
  else if r = Char.ofNat 0x17F then 'S'
  else if r = Char.ofNat 0x212A then 'K'
  else r

/-- `foldName`. -/
def foldName (name : List Char) : List Char := name.map foldRune

/-- The name `encoding/json` gives to the kind of a value in its type errors. -/
def JValue.kind : JValue → String
  | .null => "null"
  | .bool _ => "bool"
  | .number _ => "number"
  | .string _ => "string"
  | .array _ => "array"
  | .object _ => "object"

/-- `strconv.ParseInt(s, 10, 64)` on the text of a JSON number. -/
def parseInteger (raw : List Char) : Option Int :=
  match raw with
  | '-' :: ds => if ds = [] then none else (parseDigits ds 0).map (fun n => -n)
  | ds => if ds = [] then none else parseDigits ds 0

/-- The JSON name of each string-typed field of `Cita`, with its setter. -/
def stringFields : List (String × (Cita → String → Cita)) :=
  [("tramite", fun c v => { c with Tramite := v }),
   ("institucion", fun c v => { c with Institucion := v }),
   ("nombres", fun c v => { c with Nombres := v }),
   ("apellidos", fun c v => { c with Apellidos := v }),
   ("telefono", fun c v => { c with Telefono := v }),
   ("correo_electronico", fun c v => { c with CorreoElectronico := v }),
   ("cedula", fun c v => { c with Cedula := v }),
   ("direccion", fun c v => { c with Direccion := v })]

/-- `(*UnmarshalTypeError).Error()` for a field of `Cita`. -/
def typeError (what field type : String) : String :=
  "json: cannot unmarshal " ++ what ++ " into Go struct field Cita." ++ field ++ " of type " ++
    type

/-- Stores one object member into the struct. The result is an error that stops decoding
(only `Time.UnmarshalJSON` raises one), or the updated struct together with the first type
error saved so far (decoding goes on after a type error, which is reported at the end). A key
selects the field whose name it equals after folding; other keys are skipped; `null` leaves
a field of type `int` or `string` as it is. -/
def setField (acc : Cita × Option String) (key : List Char) (v : JValue) (item : List Char) :
    Except String (Cita × Option String) :=
  let name := foldName (unquote key)
  let keep (e : String) : Cita × Option String := (acc.1, acc.2 <|> some e)
  if name = foldName "id".data then
    match v with
    | .null => .ok acc
    | .number raw =>
      match parseInteger raw with
      | some n =>
        if -(2 : Int) ^ 63 ≤ n ∧ n < 2 ^ 63 then .ok ({ acc.1 with ID := n }, acc.2)
        else .ok (keep (typeError ("number " ++ String.mk raw) "id" "int"))
      | none => .ok (keep (typeError ("number " ++ String.mk raw) "id" "int"))
    | other => .ok (keep (typeError other.kind "id" "int"))
  else if name = foldName "fecha_cita".data then
    match acc.1.FechaCita.UnmarshalJSON item with
    | .ok t => .ok ({ acc.1 with FechaCita := t }, acc.2)
    | .error e => .error e
  else
    match stringFields.find? (fun f => foldName f.1.data = name) with
    | none => .ok acc
    | some (field, set) =>
      match v with
      | .null => .ok acc
      | .string raw => .ok (set acc.1 (String.mk (unquote raw)), acc.2)
      | other => .ok (keep (typeError other.kind field "string"))

/-- Stores the members of an object in order. -/
def setFields : Cita × Option String → List (List Char × JValue × List Char) →
    Except String (Cita × Option String)
  | acc, [] => .ok acc
  | acc, (key, v, item) :: rest =>
    match setField acc key v item with
    | .ok acc => setFields acc rest
    | .error e => .error e

/-- `phasePanicMsg`: what the decoder reports when the text is not the well-formed value that
the scanner announced. -/
def phasePanicMsg : String := "JSON decoder out of sync - data changing underfoot?"

/-- `(*decodeState).unmarshal` into a zero `Cita`, on the text of one JSON value. -/
def unmarshal (data : List Char) : Except String Cita :=
  match parseValue (2 * data.length + 2) data with
  | none => .error phasePanicMsg
  | some (.null, _) => .ok Cita.zero
  | some (.object members, _) =>
    match setFields (Cita.zero, none) members with
    | .ok (c, none) => .ok c
    | .ok (_, some e) => .error e
    | .error e => .error e
  | some (other, _) =>
    .error ("json: cannot unmarshal " ++ other.kind ++ " into Go value of type main.Cita")

/-- `json.NewDecoder(r.Body).Decode(&newCita)` on a request body and a zero `newCita`: the
first JSON value of the body is read by the scanner and then decoded; what follows that value
in the body is not looked at. -/
def decodeCita (body : String) : Except String Cita :=
  match readValue body.data with
  | .error e => .error e
  | .ok n => unmarshal (body.data.take n)

/-! ## The `database/sql` interface -/

/-- A value bound to a statement parameter or stored in a column. -/
inductive SqlValue where
  | null
  | integer (n : Int)
  | text (s : String)
deriving DecidableEq, Repr

/-- A `sql.Result`: what `LastInsertId()` reports. -/
structure SqlResult where
  lastInsertId : Except String Int

/-- The operations of `database/sql` that the program uses, over a store state `σ`
(which includes the package-level handle `db`). Errors carry their message text. -/
structure Driver (σ : Type) where
  openDB : σ → String → String → Except String Unit × σ
  ping : σ → Except String Unit × σ
  exec : σ → String → List SqlValue → Except String SqlResult × σ
  close : σ → σ

/-- Width of Go `int` on the platform modelled (64-bit). -/
def intBits : Nat := 64

/-- The conversion `int(id)` from `int64`: wraps to the signed range of `int`. -/
def toInt (x : Int) : Int := (x + 2 ^ (intBits - 1)) % 2 ^ intBits - 2 ^ (intBits - 1)

/-! ## The program: `initDB` and `addCita` -/

/-- `initDB`: returns the error (if any), the lines logged, and the store state. -/
def initDB {σ : Type} (drv : Driver σ) (s : σ) : Option String × List String × σ :=
  match drv.openDB s "sqlite3" dbFileName with
  | (.error e, s) => (some ("error al abrir la base de datos: " ++ e), [], s)
  | (.ok _, s) =>
    match drv.ping s with
    | (.error e, s) => (some ("error al hacer ping a la base de datos: " ++ e), [], s)
    | (.ok _, s) =>
      match drv.exec s createTableSQL [] with
      | (.error e, s) =>
        let s := drv.close s
        (some ("error al crear la tabla citas: " ++ e), [], s)
      | (.ok _, s) =>
        (none, ["Base de datos y tabla \x27citas\x27 inicializadas correctamente."], s)

/-- The nine arguments that `addCita` binds to `insertSQL`. -/
def insertArgs (cita : Cita) : List SqlValue :=
  [.text cita.Tramite, .text cita.Institucion, .text cita.Nombres, .text cita.Apellidos,
   .text cita.Telefono, .text cita.CorreoElectronico, .text cita.Cedula, .text cita.Direccion,
   .text cita.FechaCita.FormatRFC3339]

/-- `addCita`: one `db.Exec` of `insertSQL`, then `LastInsertId`. -/
def addCita {σ : Type} (drv : Driver σ) (s : σ) (cita : Cita) : Except String Int × σ :=
  match drv.exec s insertSQL (insertArgs cita) with
  | (.error e, s) => (.error ("error al insertar cita: " ++ e), s)
  | (.ok result, s) =>
    match result.lastInsertId with
    | .error e => (.error ("error al obtener el ID de la última inserción: " ++ e), s)
    | .ok id => (.ok id, s)

/-! ## The program: `handleAddCita` -/

/-- An HTTP request as the handler reads it: method and body. -/
structure Request where
  method : String
  body : String
deriving DecidableEq, Repr

/-- A value placed in the response map that is handed to the JSON encoder. -/
inductive JsonValue where
  | string (s : String)
  | int64 (n : Int)
  | cita (c : Cita)
deriving DecidableEq, Repr

/-- A response body: nothing written, plain text, or the JSON object written by
`json.NewEncoder(w).Encode`, given by the entries of the map it encodes. -/
inductive Body where
  | empty
  | text (s : String)
  | json (entries : List (String × JsonValue))
deriving DecidableEq, Repr

/-- The response written by the handler. -/
structure Response where
  status : Nat
  headers : List (String × String)
  body : Body
deriving DecidableEq, Repr

/-- `http.Error(w, msg, code)`: plain-text headers, the status, and the message line. -/
def httpError (msg : String) (code : Nat) : Response :=
  ⟨code, [("Content-Type", "text/plain; charset=utf-8"), ("X-Content-Type-Options", "nosniff")],
    .text (msg ++ "\n")⟩

/-- `http.MethodPost`. -/
def MethodPost : String := "POST"

/-- `http.StatusOK`. -/
def StatusOK : Nat := 200

/-- `http.StatusBadRequest`. -/
def StatusBadRequest : Nat := 400

/-- `http.StatusMethodNotAllowed`. -/
def StatusMethodNotAllowed : Nat := 405

/-- `http.StatusInternalServerError`. -/
def StatusInternalServerError : Nat := 500

/-- The error of `json.Marshal` on a value of the response map, if it has one. A string and
an integer always marshal; a `Cita` marshals field by field, and of its fields only the
`time.Time` can fail, in its `MarshalJSON`. -/
def JsonValue.marshalError : JsonValue → Option String
  | .string _ => none
  | .int64 _ => none
  | .cita c =>
    match c.FechaCita.MarshalJSON with
    | .ok _ => none
    | .error e => some ("json: error calling MarshalJSON for type time.Time: " ++ e)

/-- `json.NewEncoder(w).Encode(m)` on a response to which nothing was written yet: the map is
marshalled first, and only if that succeeds is anything written. On an error the body stays
empty. -/
def Encode (entries : List (String × JsonValue)) : Except String Unit × Body :=
  match entries.findSome? (fun entry => entry.2.marshalError) with
  | some e => (.error e, .empty)
  | none => (.ok (), .json entries)

/-- What one run of the handler produces: the response, the server log lines, and the store. -/
structure Outcome (σ : Type) where
  response : Response
  log : List String
  db : σ

/-- `handleAddCita`. The JSON decoder `json.NewDecoder(r.Body).Decode(&newCita)` is the
parameter `decode`; the store is reached through `drv`. The error of `Encode` is dropped, as
in the source; a handler that returns without having set a status is answered with 200. -/
def handleAddCita {σ : Type} (decode : String → Except String Cita) (drv : Driver σ) (s : σ)
    (r : Request) : Outcome σ :=
  if r.method ≠ MethodPost then
    ⟨httpError "Método no permitido" StatusMethodNotAllowed, [], s⟩
  else
    match decode r.body with
    | .error err =>
      ⟨httpError ("Error al decodificar JSON: " ++ err) StatusBadRequest, [], s⟩
    | .ok newCita =>
      if newCita.Nombres = "" ∨ newCita.Apellidos = "" ∨ newCita.FechaCita.IsZero = true then
        ⟨httpError "Faltan campos obligatorios (Nombres, Apellidos, Fecha de Cita)"
          StatusBadRequest, [], s⟩
      else
        match addCita drv s newCita with
        | (.error err, s) =>
          ⟨httpError "Error interno del servidor al guardar la cita" StatusInternalServerError,
            ["Error al añadir cita a la DB: " ++ err], s⟩
        | (.ok id, s) =>
          let newCita := { newCita with ID := toInt id }
          let written := Encode [("message", .string "Cita agendada con éxito"),
            ("id", .int64 id), ("cita", .cita newCita)]
          ⟨⟨StatusOK, [("Content-Type", "application/json")], written.2⟩,
            ["Cita agendada con éxito, ID: " ++ toString id], s⟩

/-- `http.ListenAndServe` while it runs: the requests reaching `/api/cita` are handled in
turn. Returns the responses, the log lines and the store. -/
def serveAll {σ : Type} (decode : String → Except String Cita) (drv : Driver σ) :
    σ → List Request → List Response × List String × σ
  | s, [] => ([], [], s)
  | s, r :: rs =>
    let o := handleAddCita decode drv s r
    let rest := serveAll decode drv o.db rs
    (o.response :: rest.1, o.log ++ rest.2.1, rest.2.2)

/-! ## The program: `main` -/

/-- How the process ends: exit code, everything logged, and the store as left behind. -/
structure Exit (σ : Type) where
  code : Nat
  log : List String
  state : σ

/-- `log.Fatal` / `log.Fatalf`: print the message, then `os.Exit(1)`. The process ends at
once: the calls registered with `defer` are not run. -/
def logFatal {σ : Type} (log : List String) (msg : String) (_deferred : List (σ → σ)) (s : σ) :
    Exit σ :=
  ⟨1, log ++ [msg], s⟩

/-- `main`: `initDB`, then `defer db.Close()`, then `http.ListenAndServe`, which handles
`requests` and finally returns the error `listenErr`. -/
def main {σ : Type} (decode : String → Except String Cita) (drv : Driver σ) (s : σ)
    (requests : List Request) (listenErr : String) : Exit σ :=
  match initDB drv s with
  | (some err, log, s) =>
    logFatal log ("No se pudo inicializar la base de datos: " ++ err) [] s
  | (none, log, s) =>
    let deferred := [drv.close]
    let log := log ++ ["Servidor iniciado en http://localhost:8080",
      "Sirviendo archivos estáticos desde ./public"]
    let served := serveAll decode drv s requests
    logFatal (log ++ served.2.1) listenErr deferred served.2.2

/-! ## SQLite behind `database/sql` -/

/-- One row of table `citas`: the rowid and the nine column values in schema order. -/
structure Row where
  id : Nat
  cols : List SqlValue
deriving DecidableEq, Repr

/-- Table `citas` with its `sqlite_sequence` entry (the largest rowid assigned so far). -/
structure Table where
  rows : List Row
  seq : Nat
deriving DecidableEq, Repr

/-- The store as the program sees it: the contents of `citas.db`, the handles opened and not
yet closed, whether the package-level handle `db` is open, and the failures that the
environment currently raises on ping and statement execution. A handle that was never
opened is treated like a closed one; `main` uses the handle only after `initDB`. -/
structure Sqlite where
  table : Option Table
  handles : Nat
  opened : Bool
  pingFault : Option String
  execFault : Option String
deriving DecidableEq, Repr

/-- The names under which a driver is registered with `database/sql` when the program runs.
A driver registers itself when its package is imported; `main.go` imports `database/sql`,
`encoding/json`, `fmt`, `log`, `net/http` and `time`, none of which is a driver. -/
def drivers : List String := []

/-- Largest rowid SQLite can assign. -/
def maxRowid : Nat := 9223372036854775807

/-- The columns of `citas` after `id`, all declared `TEXT NOT NULL`. -/
def columns : List String :=
  ["tramite", "institucion", "nombres", "apellidos", "telefono", "correo_electronico",
   "cedula", "direccion", "fecha_cita"]

/-- The largest rowid the table holds or has ever assigned. -/
def Table.highWater (t : Table) : Nat := (t.rows.map Row.id).foldl max t.seq

/-- The `NOT NULL` check: the first column whose value is `NULL`, if any. -/
def notNullViolation : List String → List SqlValue → Option String
  | col :: cols, v :: vs => if v = SqlValue.null then some col else notNullViolation cols vs
  | _, _ => none

/-- `INSERT INTO citas (...) VALUES (?, ..., ?)` on an existing table: the `NOT NULL`
constraints are checked, then `AUTOINCREMENT` assigns one more than the largest rowid ever
used (and fails once the largest possible rowid has been used). -/
def Table.insert (t : Table) (args : List SqlValue) : Except String (Nat × Table) :=
  if args.length ≠ columns.length then
    .error ("sql: expected 9 arguments, got " ++ toString args.length)
  else
    match notNullViolation columns args with
    | some col => .error ("NOT NULL constraint failed: citas." ++ col)
    | none =>
      if t.highWater ≥ maxRowid then .error "database or disk is full"
      else
        let id := t.highWater + 1
        .ok (id, ⟨t.rows ++ [⟨id, args⟩], id⟩)

/-- `sql.Open(driverName, dataSourceName)`: fails when no driver is registered under the
name, and `db` is then nil; otherwise a new handle (no connection is made yet). -/
def Sqlite.openDB (w : Sqlite) (driverName _dataSourceName : String) :
    Except String Unit × Sqlite :=
  if driverName ∈ drivers then (.ok (), { w with handles := w.handles + 1, opened := true })
  else
    (.error ("sql: unknown driver \"" ++ driverName ++ "\" (forgotten import?)"),
      { w with opened := false })

/-- `db.Ping()`. -/
def Sqlite.ping (w : Sqlite) : Except String Unit × Sqlite :=
  if w.opened = false then (.error "sql: database is closed", w)
  else
    match w.pingFault with
    | some e => (.error e, w)
    | none => (.ok (), w)

/-- `db.Exec(query, args...)` for the two statements of the program. -/
def Sqlite.exec (w : Sqlite) (query : String) (args : List SqlValue) :
    Except String SqlResult × Sqlite :=
  if w.opened = false then (.error "sql: database is closed", w)
  else
    match w.execFault with
    | some e => (.error e, w)
    | none =>
      if query = createTableSQL then
        match w.table with
        | some _ => (.ok ⟨.ok 0⟩, w)
        | none => (.ok ⟨.ok 0⟩, { w with table := some ⟨[], 0⟩ })
      else if query = insertSQL then
        match w.table with
        | none => (.error "no such table: citas", w)
        | some t =>
          match t.insert args with
          | .error e => (.error e, w)
          | .ok (id, t) => (.ok ⟨.ok (id : Int)⟩, { w with table := some t })
      else (.error "SQL logic error", w)

/-- `db.Close()`. -/
def Sqlite.close (w : Sqlite) : Sqlite :=
  if w.opened = true then { w with handles := w.handles - 1, opened := false } else w

/-- The SQLite store as a `database/sql` driver. -/
def sqlite : Driver Sqlite := ⟨Sqlite.openDB, Sqlite.ping, Sqlite.exec, Sqlite.close⟩

/-- The largest rowid in use or ever assigned in the store (0 when there is no table). -/
def Sqlite.highWater (w : Sqlite) : Nat :=
  match w.table with
  | some t => t.highWater
  | none => 0

/-- Reading `fecha_cita` of the row with the given id directly from the store. -/
def Sqlite.storedFecha (w : Sqlite) (id : Nat) : Option String :=
  match w.table with
  | none => none
  | some t =>
    match t.rows.find? (fun r => r.id = id) with
    | some r =>
      match r.cols.getD 8 .null with
      | .text s => some s
      | _ => none
    | none => none

/-- The store is able to take an insert: handle open, no failure raised by the environment,
table present, rowids not exhausted. -/
def Sqlite.Healthy (w : Sqlite) : Prop :=
  w.opened = true ∧ w.execFault = none ∧ ∃ t, w.table = some t ∧ t.highWater < maxRowid

instance (w : Sqlite) : Decidable w.Healthy :=
  match h : w.table with
  | none => isFalse (fun hh => by
      obtain ⟨_, _, t, ht, _⟩ := hh
      rw [h] at ht
      exact Option.noConfusion ht)
  | some t =>
    if hc : w.opened = true ∧ w.execFault = none ∧ t.highWater < maxRowid then
      isTrue ⟨hc.1, hc.2.1, t, h, hc.2.2⟩
    else
      isFalse (fun hh => by
        obtain ⟨h1, h2, t2, ht, h3⟩ := hh
        rw [h] at ht
        cases ht
        exact hc ⟨h1, h2, h3⟩)

/-- A request reaching a running instance, with the statement failure (if any) that the
environment raises while it is handled. -/
structure Arrival where
  request : Request
  fault : Option String
deriving DecidableEq, Repr

/-- One running instance handling requests in turn: each entry of the result is the store in
which the request was handled and the response it got. -/
def serve (decode : String → Except String Cita) : Sqlite → List Arrival → List (Sqlite × Response)
  | _, [] => []
  | w, a :: as =>
    let w := { w with execFault := a.fault }
    let o := handleAddCita decode sqlite w a.request
    (w, o.response) :: serve decode o.db as

/-- The `id` member of a 200 response, if the response is one with a JSON body. -/
def Response.id (r : Response) : Option Int :=
  if r.status = 200 then
    match r.body with
    | .json entries =>
      match entries.lookup "id" with
      | some (.int64 n) => some n
      | _ => none
    | .text _ => none
    | .empty => none
  else none

/-- A driver that counts the statements executed through it. -/
def counting {σ : Type} (drv : Driver σ) : Driver (σ × Nat) where
  openDB s a b := ((drv.openDB s.1 a b).1, ((drv.openDB s.1 a b).2, s.2))
  ping s := ((drv.ping s.1).1, ((drv.ping s.1).2, s.2))
  exec s q args := ((drv.exec s.1 q args).1, ((drv.exec s.1 q args).2, s.2 + 1))
  close s := (drv.close s.1, s.2)

/-! ## Concrete stores and requests -/

/-- The store before the program has run: no database file, no handle. -/
def freshStore : Sqlite := ⟨none, 0, false, none, none⟩

/-- A database file that already holds table `citas` with one appointment; no handle. -/
def usedStore : Sqlite :=
  ⟨some ⟨[⟨1, [.text "", .text "", .text "Ana", .text "Lopez", .text "", .text "", .text "",
    .text "", .text "2025-06-15T09:30:00-05:00"]⟩], 1⟩, 0, false, none, none⟩

/-- A store as `handleAddCita` finds it when `db` is an open handle on a database with an
empty table `citas`. -/
def readyStore : Sqlite := ⟨some ⟨[], 0⟩, 1, true, none, none⟩

/-- The store `readyStore` after `db.Close()`: the table is there, the handle is closed. -/
def closedStore : Sqlite := ⟨some ⟨[], 0⟩, 0, false, none, none⟩

/-- A POST whose payload has only the three validated fields (and an id that is ignored). -/
def requestMinimal : Request :=
  ⟨"POST", "\x7b\"id\":99,\"nombres\":\"Ana\",\"apellidos\":\"Lopez\",\"fecha_cita\":\"2025-06-15T09:30:00-05:00\"\x7d"⟩

/-- The appointment that `requestMinimal` decodes to. -/
def citaMinimal : Cita :=
  ⟨99, "", "", "Ana", "Lopez", "", "", "", "", ⟨63885594600, 0, -18000⟩⟩

/-- The POST of the specification whose `nombres` is empty. -/
def requestNoNombres : Request :=
  ⟨"POST", "\x7b\"nombres\":\"\",\"apellidos\":\"Lopez\",\"fecha_cita\":\"2025-01-01T10:00:00Z\"\x7d"⟩

/-- The same payload as `requestMinimal`, sent with GET. -/
def requestGet : Request := ⟨"GET", requestMinimal.body⟩

/-- A POST whose body is not JSON. -/
def requestNotJson : Request := ⟨"POST", "not json"⟩

/-- A POST whose `fecha_cita` has a fractional second. -/
def requestFraction : Request :=
  ⟨"POST", "\x7b\"nombres\":\"Ana\",\"apellidos\":\"Lopez\",\"fecha_cita\":\"2025-06-15T09:30:00.5-05:00\"\x7d"⟩

/-- A POST whose `fecha_cita` has a zone offset of 24 hours. -/
def requestZone24 : Request :=
  ⟨"POST", "\x7b\"nombres\":\"Ana\",\"apellidos\":\"Lopez\",\"fecha_cita\":\"2025-06-15T09:30:00+24:00\"\x7d"⟩

/-- The appointment that `requestZone24` decodes to. -/
def citaZone24 : Cita :=
  ⟨0, "", "", "Ana", "Lopez", "", "", "", "", ⟨63885490200, 0, 86400⟩⟩

/-- A POST whose `fecha_cita` has a zone offset of 24 hours and 60 minutes. -/
def requestZone2460 : Request :=
  ⟨"POST", "\x7b\"nombres\":\"Ana\",\"apellidos\":\"Lopez\",\"fecha_cita\":\"2025-06-15T09:30:00+24:60\"\x7d"⟩

/-- Three valid POSTs in a row; the environment fails the statement of the second one. -/
def arrivalsWithFault : List Arrival :=
  [⟨requestMinimal, none⟩, ⟨requestMinimal, some "disk I/O error"⟩, ⟨requestMinimal, none⟩]
/-! ## Calendar and RFC 3339 lemmas -/

theorem isLeap_iff (year : Int) :
    isLeap year = true ↔ year % 4 = 0 ∧ (year % 100 ≠ 0 ∨ year % 400 = 0) := by
  simp [isLeap]

theorem daysPer400Years_eq : daysPer400Years = 146097 := rfl
theorem daysPer100Years_eq : daysPer100Years = 36524 := rfl
theorem daysPer4Years_eq : daysPer4Years = 1461 := rfl

/-- Decomposition of a year into 400-, 100-, 4- and 1-year cycles since the absolute epoch. -/
theorem daysSinceEpoch_cycles (year : Int) (hy : absoluteZeroYear ≤ year) :
    ∃ a b c e : Int, 0 ≤ a ∧ 0 ≤ b ∧ b ≤ 3 ∧ 0 ≤ c ∧ c ≤ 24 ∧ 0 ≤ e ∧ e ≤ 3 ∧
      year - absoluteZeroYear = 400 * a + 100 * b + 4 * c + e ∧
      daysSinceEpoch year = 146097 * a + 36524 * b + 1461 * c + 365 * e := by
  simp only [absoluteZeroYear] at hy
  simp only [daysSinceEpoch, daysPer400Years_eq, daysPer100Years_eq, daysPer4Years_eq,
    absoluteZeroYear]
  generalize hY : year - -292277022399 = Y
  have hY0 : 0 ≤ Y := by omega
  refine ⟨Y / 400, (Y - 400 * (Y / 400)) / 100,
    (Y - 400 * (Y / 400) - 100 * ((Y - 400 * (Y / 400)) / 100)) / 4,
    Y - 400 * (Y / 400) - 100 * ((Y - 400 * (Y / 400)) / 100) -
      4 * ((Y - 400 * (Y / 400) - 100 * ((Y - 400 * (Y / 400)) / 100)) / 4),
    ?_, ?_, ?_, ?_, ?_, ?_, ?_, ?_, ?_⟩
  all_goals omega

theorem isLeap_cycles (year a b c e : Int) (hb0 : 0 ≤ b) (hb : b ≤ 3) (hc0 : 0 ≤ c) (hc : c ≤ 24)
    (he0 : 0 ≤ e) (he : e ≤ 3)
    (hyear : year - absoluteZeroYear = 400 * a + 100 * b + 4 * c + e) :
    isLeap year = true ↔ e = 3 ∧ (c ≠ 24 ∨ b = 3) := by
  rw [isLeap_iff]
  simp only [absoluteZeroYear] at hyear
  constructor
  · intro h; omega
  · intro h; omega

/-- Year and day of year computed by the cycle arithmetic of `absDate`. -/
theorem absDate_yearday (year yday clock : Int) (hy : absoluteZeroYear ≤ year)
    (h0 : 0 ≤ yday) (h1 : yday < 365 + (if isLeap year = true then 1 else 0))
    (hc0 : 0 ≤ clock) (hc : clock < 86400) :
    absDate ((daysSinceEpoch year + yday) * secondsPerDay + clock) =
      (year, (absDateMonthDay year yday).1, (absDateMonthDay year yday).2, yday) := by
  obtain ⟨a, b, c, e, ha0, hb0, hb, hc0', hc', he0, he, hyear, hE⟩ := daysSinceEpoch_cycles year hy
  have hl := isLeap_cycles year a b c e hb0 hb hc0' hc' he0 he hyear
  have hyd : yday ≤ 364 ∨ (yday = 365 ∧ e = 3 ∧ (c ≠ 24 ∨ b = 3)) := by
    by_cases hleap : isLeap year = true
    · rw [if_pos hleap] at h1
      have := hl.mp hleap
      omega
    · rw [if_neg hleap] at h1
      omega
  clear hl h1
  simp only [absDate, hE, secondsPerDay, daysPer400Years_eq, daysPer100Years_eq,
    daysPer4Years_eq]
  have s0 : ((146097 * a + 36524 * b + 1461 * c + 365 * e + yday) * 86400 + clock) / 86400 =
      146097 * a + 36524 * b + 1461 * c + 365 * e + yday := by omega
  simp only [s0]
  have s1 : (146097 * a + 36524 * b + 1461 * c + 365 * e + yday) / 146097 = a := by omega
  have e1 : 146097 * a + 36524 * b + 1461 * c + 365 * e + yday - 146097 * a =
      36524 * b + 1461 * c + 365 * e + yday := by omega
  simp only [s1, e1]
  have s2 : (36524 * b + 1461 * c + 365 * e + yday) / 36524 -
      (36524 * b + 1461 * c + 365 * e + yday) / 36524 / 4 = b := by
    clear s0 s1 e1
    rcases hyd with h | ⟨h, he3, hcb | hcb⟩
    · have : (36524 * b + 1461 * c + 365 * e + yday) / 36524 = b := by omega
      rw [this]; omega
    · have : (36524 * b + 1461 * c + 365 * e + yday) / 36524 = b := by omega
      rw [this]; omega
    · subst hcb
      by_cases hc24 : c = 24
      · subst hc24; subst he3; subst h
        norm_num
      · have : (36524 * 3 + 1461 * c + 365 * e + yday) / 36524 = 3 := by omega
        rw [this]; norm_num
  have e2 : 36524 * b + 1461 * c + 365 * e + yday - 36524 * b = 1461 * c + 365 * e + yday := by
    omega
  simp only [s2, e2]
  have s3 : (1461 * c + 365 * e + yday) / 1461 = c := by
    clear s0 s1 e1 s2 e2
    omega
  have e3 : 1461 * c + 365 * e + yday - 1461 * c = 365 * e + yday := by omega
  simp only [s3, e3]
  have s4 : (365 * e + yday) / 365 - (365 * e + yday) / 365 / 4 = e := by
    clear s0 s1 e1 s2 e2 s3 e3
    rcases hyd with h | ⟨h, he3, _⟩
    · have : (365 * e + yday) / 365 = e := by omega
      rw [this]; omega
    · subst he3; subst h
      norm_num
  have e4 : 365 * e + yday - 365 * e = yday := by omega
  simp only [s4, e4]
  have e5 : 400 * a + 100 * b + 4 * c + e + absoluteZeroYear = year := by omega
  simp only [e5]

theorem daysBefore_vals : daysBefore 0 = 0 ∧ daysBefore 1 = 31 ∧ daysBefore 2 = 59 ∧
    daysBefore 3 = 90 ∧ daysBefore 4 = 120 ∧ daysBefore 5 = 151 ∧ daysBefore 6 = 181 ∧
    daysBefore 7 = 212 ∧ daysBefore 8 = 243 ∧ daysBefore 9 = 273 ∧ daysBefore 10 = 304 ∧
    daysBefore 11 = 334 ∧ daysBefore 12 = 365 := by decide

/-- Month and day recovered from the day of year, in a year that is not leap. -/
theorem absDateMonthDay_common (year m d : Int) (hl : isLeap year = false) (hm1 : 1 ≤ m)
    (hm : m ≤ 12) (hd1 : 1 ≤ d) (hd : d ≤ daysBefore m - daysBefore (m - 1)) :
    absDateMonthDay year (daysBefore (m - 1) + (d - 1)) = (m, d) := by
  obtain ⟨v0, v1, v2, v3, v4, v5, v6, v7, v8, v9, v10, v11, v12⟩ := daysBefore_vals
  simp only [absDateMonthDay, hl]
  simp only [Bool.false_and, Bool.false_eq_true, if_false]
  generalize hq : (daysBefore (m - 1) + (d - 1)) / 31 = q
  interval_cases m <;> simp only [Int.reduceSub, v0, v1, v2, v3, v4, v5, v6, v7, v8, v9, v10, v11, v12] at hd hq ⊢ <;>
  · have hq' : 0 ≤ q ∧ q ≤ 11 := by omega
    obtain ⟨hq0, hq1⟩ := hq'
    interval_cases q <;> simp only [Int.reduceAdd, v0, v1, v2, v3, v4, v5, v6, v7, v8, v9, v10, v11, v12] <;>
    first
    | omega
    | (split_ifs <;> first | omega | (simp only [Prod.mk.injEq]; omega))

/-- Month and day recovered from the day of year, in a leap year. -/
theorem absDateMonthDay_leap (year m d : Int) (hl : isLeap year = true) (hm1 : 1 ≤ m)
    (hm : m ≤ 12) (hd1 : 1 ≤ d)
    (hd : d ≤ if m = 2 then 29 else daysBefore m - daysBefore (m - 1)) :
    absDateMonthDay year (daysBefore (m - 1) + (if 3 ≤ m then 1 else 0) + (d - 1)) = (m, d) := by
  obtain ⟨v0, v1, v2, v3, v4, v5, v6, v7, v8, v9, v10, v11, v12⟩ := daysBefore_vals
  simp only [absDateMonthDay, hl]
  simp only [Bool.true_and, beq_iff_eq, decide_eq_true_eq]
  generalize hy : daysBefore (m - 1) + (if 3 ≤ m then 1 else 0) + (d - 1) = yday
  by_cases h59 : yday = 31 + 29 - 1
  · rw [if_pos h59]
    interval_cases m <;> simp only [Int.reduceSub, v0, v1, v2, v3, v4, v5, v6, v7, v8, v9, v10, v11, v12] at hd hy ⊢ <;>
      norm_num at hd hy ⊢ <;> omega
  · rw [if_neg h59]
    generalize hday : (if yday > 31 + 29 - 1 then yday - 1 else yday) = day
    generalize hq : day / 31 = q
    interval_cases m <;> simp only [Int.reduceSub, v0, v1, v2, v3, v4, v5, v6, v7, v8, v9, v10, v11, v12] at hd hy ⊢ <;>
    norm_num at hd hy hday h59 <;>
    · have hday' : day = yday ∨ day = yday - 1 := by split_ifs at hday <;> omega
      have hq' : 0 ≤ q ∧ q ≤ 11 := by omega
      obtain ⟨hq0, hq1⟩ := hq'
      interval_cases q <;> simp only [Int.reduceAdd, v0, v1, v2, v3, v4, v5, v6, v7, v8, v9, v10, v11, v12] <;>
      first
      | omega
      | (split_ifs at hday ⊢ <;> first | omega | (simp only [Prod.mk.injEq]; omega))

theorem daysIn_le (m year : Int) (hm1 : 1 ≤ m) (hm : m ≤ 12) : daysIn m year ≤ 31 := by
  obtain ⟨v0, v1, v2, v3, v4, v5, v6, v7, v8, v9, v10, v11, v12⟩ := daysBefore_vals
  unfold daysIn
  split_ifs
  · omega
  · interval_cases m <;>
      simp only [Int.reduceSub, v0, v1, v2, v3, v4, v5, v6, v7, v8, v9, v10, v11, v12] <;> omega

theorem ydayOf_bounds (year month day : Int) (hm1 : 1 ≤ month) (hm : month ≤ 12)
    (hd1 : 1 ≤ day) (hd : day ≤ daysIn month year) :
    0 ≤ ydayOf year month day ∧
      ydayOf year month day < 365 + (if isLeap year = true then 1 else 0) := by
  obtain ⟨v0, v1, v2, v3, v4, v5, v6, v7, v8, v9, v10, v11, v12⟩ := daysBefore_vals
  unfold ydayOf
  unfold daysIn at hd
  by_cases hl : isLeap year = true
  · simp only [hl, true_and, if_true, Bool.and_true, beq_iff_eq] at hd ⊢
    interval_cases month <;>
      simp only [Int.reduceSub, v0, v1, v2, v3, v4, v5, v6, v7, v8, v9, v10, v11, v12] at hd ⊢ <;>
      norm_num at hd ⊢ <;> omega
  · simp only [hl, false_and, if_false, Bool.and_false, Bool.false_eq_true] at hd ⊢
    interval_cases month <;>
      simp only [Int.reduceSub, v0, v1, v2, v3, v4, v5, v6, v7, v8, v9, v10, v11, v12] at hd ⊢ <;>
      omega

theorem absDateMonthDay_ydayOf (year month day : Int) (hm1 : 1 ≤ month) (hm : month ≤ 12)
    (hd1 : 1 ≤ day) (hd : day ≤ daysIn month year) :
    absDateMonthDay year (ydayOf year month day) = (month, day) := by
  unfold ydayOf
  unfold daysIn at hd
  by_cases hl : isLeap year = true
  · simp only [hl, true_and, Bool.and_true, beq_iff_eq] at hd ⊢
    exact absDateMonthDay_leap year month day hl hm1 hm hd1 hd
  · have hl' : isLeap year = false := by simpa using hl
    simp only [hl', Bool.and_false, Bool.false_eq_true, if_false, false_and, add_zero] at hd ⊢
    exact absDateMonthDay_common year month day hl' hm1 hm hd1 hd

theorem norm_id (hi lo base : Int) (h0 : 0 ≤ lo) (h1 : lo < base) :
    norm hi lo base = (hi, lo) := by
  unfold norm
  have h2 : ¬ lo < 0 := by omega
  have h3 : ¬ lo ≥ base := by omega
  simp [h2, h3]

/-- In-range arguments pass through `Date` without normalisation. -/
theorem Date_eq (year month day hour min sec nsec : Int)
    (hm1 : 1 ≤ month) (hm : month ≤ 12)
    (hh0 : 0 ≤ hour) (hh : hour ≤ 23) (hn0 : 0 ≤ min) (hn : min ≤ 59)
    (hs0 : 0 ≤ sec) (hs : sec ≤ 59) (hns0 : 0 ≤ nsec) (hns : nsec < 1000000000) :
    Date year month day hour min sec nsec =
      ⟨(daysSinceEpoch year + ydayOf year month day) * secondsPerDay +
        (hour * 3600 + min * 60 + sec) + absoluteToInternal, nsec, 0⟩ := by
  have e1 := norm_id year (month - 1) 12 (by omega) (by omega)
  have e2 := norm_id sec nsec 1000000000 hns0 hns
  have e3 := norm_id min sec 60 hs0 (by omega)
  have e4 := norm_id hour min 60 hn0 (by omega)
  have e5 := norm_id day hour 24 hh0 (by omega)
  unfold Date
  simp only [e1, e2, e3, e4, e5]
  have em : month - 1 + 1 = month := by omega
  simp only [ydayOf, secondsPerDay, secondsPerHour, secondsPerMinute, Time.mk.injEq, and_true, em]
  by_cases hc : isLeap year = true ∧ 3 ≤ month
  · have hb : (isLeap year && decide (month ≥ 3)) = true := by simpa using hc
    rw [if_pos hb, if_pos hc]; omega
  · have hb : ¬ (isLeap year && decide (month ≥ 3)) = true := by simpa using hc
    rw [if_neg hb, if_neg hc]; omega

theorem absClock_eq (days hour min sec : Int)
    (hh0 : 0 ≤ hour) (hh : hour ≤ 23) (hn0 : 0 ≤ min) (hn : min ≤ 59)
    (hs0 : 0 ≤ sec) (hs : sec ≤ 59) :
    absClock (days * secondsPerDay + (hour * 3600 + min * 60 + sec)) = (hour, min, sec) := by
  simp only [absClock, secondsPerDay, secondsPerHour, secondsPerMinute]
  have e0 : (days * 86400 + (hour * 3600 + min * 60 + sec)) % 86400 =
      hour * 3600 + min * 60 + sec := by omega
  have e1 : (hour * 3600 + min * 60 + sec) / 3600 = hour := by omega
  have e2 : (hour * 3600 + min * 60 + sec - hour * 3600) / 60 = min := by omega
  simp only [e0, e1, e2, Prod.mk.injEq, true_and]
  omega

theorem digitChar_spec (n : Int) (h0 : 0 ≤ n) (h9 : n ≤ 9) :
    isDigitChar (digitChar n) = true ∧ (((digitChar n).toNat : Int) - 48 = n) := by
  interval_cases n <;> decide

theorem parseDigits_two (u : Int) (h0 : 0 ≤ u) (h1 : u ≤ 99) :
    parseDigits [digitChar (u / 10), digitChar (u % 10)] 0 = some u := by
  obtain ⟨a1, a2⟩ := digitChar_spec (u / 10) (by omega) (by omega)
  obtain ⟨b1, b2⟩ := digitChar_spec (u % 10) (by omega) (by omega)
  simp only [parseDigits, a1, b1, if_true, a2, b2, Option.some.injEq]
  omega

theorem parseDigits_four (u : Int) (h0 : 0 ≤ u) (h1 : u ≤ 9999) :
    parseDigits [digitChar (u / 1000), digitChar (u / 100 % 10), digitChar (u / 10 % 10),
      digitChar (u % 10)] 0 = some u := by
  obtain ⟨a1, a2⟩ := digitChar_spec (u / 1000) (by omega) (by omega)
  obtain ⟨b1, b2⟩ := digitChar_spec (u / 100 % 10) (by omega) (by omega)
  obtain ⟨c1, c2⟩ := digitChar_spec (u / 10 % 10) (by omega) (by omega)
  obtain ⟨d1, d2⟩ := digitChar_spec (u % 10) (by omega) (by omega)
  simp only [parseDigits, a1, b1, c1, d1, if_true, a2, b2, c2, d2, Option.some.injEq]
  omega

theorem parseUint_two (u lo hi : Int) (h0 : 0 ≤ u) (h1 : u ≤ 99) (hlo : lo ≤ u) (hhi : u ≤ hi) :
    parseUint [digitChar (u / 10), digitChar (u % 10)] lo hi = some u := by
  have hn : ¬ (u < lo ∨ hi < u) := by omega
  simp only [parseUint, parseDigits_two u h0 h1, if_neg hn]

theorem parseUint_four (u lo hi : Int) (h0 : 0 ≤ u) (h1 : u ≤ 9999) (hlo : lo ≤ u)
    (hhi : u ≤ hi) :
    parseUint [digitChar (u / 1000), digitChar (u / 100 % 10), digitChar (u / 10 % 10),
      digitChar (u % 10)] lo hi = some u := by
  have hn : ¬ (u < lo ∨ hi < u) := by omega
  simp only [parseUint, parseDigits_four u h0 h1, if_neg hn]

theorem parseUint_range (s : List Char) (lo hi x : Int) (h : parseUint s lo hi = some x) :
    lo ≤ x ∧ x ≤ hi := by
  unfold parseUint at h
  split at h
  · split at h
    · exact absurd h (by simp)
    · rename_i hx
      simp only [Option.some.injEq] at h
      subst h
      omega
  · exact absurd h (by simp)

theorem appendInt_two (b : List Char) (u : Int) (h0 : 0 ≤ u) (h1 : u ≤ 99) :
    appendInt b u 2 = b ++ [digitChar (u / 10), digitChar (u % 10)] := by
  have hn : ¬ u < 0 := by omega
  have hlt : u < 100 := by omega
  simp [appendInt, hn, hlt]

theorem appendInt_four (b : List Char) (u : Int) (h0 : 0 ≤ u) (h1 : u ≤ 9999) :
    appendInt b u 4 = b ++ [digitChar (u / 1000), digitChar (u / 100 % 10),
      digitChar (u / 10 % 10), digitChar (u % 10)] := by
  have hn : ¬ u < 0 := by omega
  have hlt : u < 10000 := by omega
  simp [appendInt, hn, hlt]

theorem Civil.abs_toTime (c : Civil) (zmax : Int) (hv : c.Valid zmax) (nsec : Int) (hns0 : 0 ≤ nsec)
    (hns : nsec < 1000000000) :
    (c.toTime nsec).abs = (daysSinceEpoch c.year + ydayOf c.year c.month c.day) * secondsPerDay +
      (c.hour * 3600 + c.min * 60 + c.sec) := by
  obtain ⟨_, _, hm1, hm, _, _, hh0, hh, hn0, hn, hs0, hs, _⟩ := hv
  simp only [Civil.toTime, Time.abs, Date_eq c.year c.month c.day c.hour c.min c.sec nsec hm1 hm
    hh0 hh hn0 hn hs0 hs hns0 hns, absoluteToInternal, internalToAbsolute]
  omega

theorem Civil.absDate_toTime (c : Civil) (zmax : Int) (hv : c.Valid zmax) (nsec : Int) (hns0 : 0 ≤ nsec)
    (hns : nsec < 1000000000) :
    absDate (c.toTime nsec).abs = (c.year, c.month, c.day, ydayOf c.year c.month c.day) := by
  rw [Civil.abs_toTime c zmax hv nsec hns0 hns]
  obtain ⟨hy0, _, hm1, hm, hd1, hd, hh0, hh, hn0, hn, hs0, hs, _⟩ := hv
  obtain ⟨hb0, hb1⟩ := ydayOf_bounds c.year c.month c.day hm1 hm hd1 hd
  rw [absDate_yearday c.year _ _ (by simp only [absoluteZeroYear]; omega) hb0 hb1 (by omega)
    (by omega), absDateMonthDay_ydayOf c.year c.month c.day hm1 hm hd1 hd]

theorem Civil.absClock_toTime (c : Civil) (zmax : Int) (hv : c.Valid zmax) (nsec : Int) (hns0 : 0 ≤ nsec)
    (hns : nsec < 1000000000) :
    absClock (c.toTime nsec).abs = (c.hour, c.min, c.sec) := by
  rw [Civil.abs_toTime c zmax hv nsec hns0 hns]
  obtain ⟨_, _, _, _, _, _, hh0, hh, hn0, hn, hs0, hs, _⟩ := hv
  exact absClock_eq _ _ _ _ hh0 hh hn0 hn hs0 hs

/-- The text written by `appendFormatRFC3339` for a time built from valid fields. -/
theorem Civil.format_toTime (c : Civil) (zmax : Int) (hv : c.Valid zmax) (hz99 : zmax ≤ 99)
    (nsec : Int) (hns0 : 0 ≤ nsec) (hns : nsec < 1000000000) (b : List Char) (nanos : Bool) :
    appendFormatRFC3339 (c.toTime nsec) b nanos =
      (if nanos = true then appendNano (b ++ c.dateText) nsec else b ++ c.dateText) ++
        c.zoneText := by
  have hD := Civil.absDate_toTime c zmax hv nsec hns0 hns
  have hC := Civil.absClock_toTime c zmax hv nsec hns0 hns
  obtain ⟨hy0, hy, hm1, hm, hd1, hd, hh0, hh, hn0, hn, hs0, hs, hzh0, hzh, hzm0, hzm⟩ := hv
  have hd31 := daysIn_le c.month c.year hm1 hm
  simp only [appendFormatRFC3339, hD, hC]
  rw [appendInt_four _ c.year hy0 hy, appendInt_two _ c.month (by omega) (by omega),
    appendInt_two _ c.day (by omega) (by omega), appendInt_two _ c.hour hh0 (by omega),
    appendInt_two _ c.min hn0 (by omega), appendInt_two _ c.sec hs0 (by omega)]
  have hoff : (c.toTime nsec).offset = c.zoneOffset := rfl
  have hnsec : (c.toTime nsec).nsec = nsec := rfl
  have htext : b ++ [digitChar (c.year / 1000), digitChar (c.year / 100 % 10),
      digitChar (c.year / 10 % 10), digitChar (c.year % 10)] ++ ['-'] ++
      [digitChar (c.month / 10), digitChar (c.month % 10)] ++ ['-'] ++
      [digitChar (c.day / 10), digitChar (c.day % 10)] ++ ['T'] ++
      [digitChar (c.hour / 10), digitChar (c.hour % 10)] ++ [':'] ++
      [digitChar (c.min / 10), digitChar (c.min % 10)] ++ [':'] ++
      [digitChar (c.sec / 10), digitChar (c.sec % 10)] = b ++ c.dateText := by
    simp [Civil.dateText]
  rw [htext]
  generalize hmid : (if nanos = true then appendNano (b ++ c.dateText) (c.toTime nsec).nsec
    else b ++ c.dateText) = mid
  rw [hnsec] at hmid
  rw [hmid]
  simp only [hoff, Civil.zoneText, beq_iff_eq]
  by_cases hz : c.zoneOffset = 0
  · simp only [hz, if_true]
  · simp only [hz, if_false]
    cases hneg : c.zneg
    · have hzo : c.zoneOffset = (c.zhour * 60 + c.zmin) * 60 := by
        simp [Civil.zoneOffset, hneg]
      have hg : goDiv c.zoneOffset 60 = c.zhour * 60 + c.zmin := by
        rw [hzo]; unfold goDiv; split_ifs <;> omega
      have hnn : ¬ (c.zhour * 60 + c.zmin < 0) := by omega
      have e1 : (c.zhour * 60 + c.zmin) / 60 = c.zhour := by omega
      have e2 : (c.zhour * 60 + c.zmin) % 60 = c.zmin := by omega
      simp only [hg, if_neg hnn, e1, e2]
      rw [appendInt_two _ c.zhour hzh0 (by omega), appendInt_two _ c.zmin hzm0 (by omega)]
      simp
    · have hzo : c.zoneOffset = -((c.zhour * 60 + c.zmin) * 60) := by
        simp [Civil.zoneOffset, hneg]
      have hg : goDiv c.zoneOffset 60 = -(c.zhour * 60 + c.zmin) := by
        rw [hzo]; unfold goDiv; split_ifs <;> omega
      have hlt : -(c.zhour * 60 + c.zmin) < 0 := by rw [hzo] at hz; omega
      have e1 : (- -(c.zhour * 60 + c.zmin)) / 60 = c.zhour := by omega
      have e2 : (- -(c.zhour * 60 + c.zmin)) % 60 = c.zmin := by omega
      simp only [hg, if_pos hlt, e1, e2]
      rw [appendInt_two _ c.zhour hzh0 (by omega), appendInt_two _ c.zmin hzm0 (by omega)]
      simp

/-- The `time.RFC3339` text of a time built from valid fields. -/
theorem Civil.format_text (c : Civil) (zmax : Int) (hv : c.Valid zmax) (hz99 : zmax ≤ 99)
    (nsec : Int) (hns0 : 0 ≤ nsec) (hns : nsec < 1000000000) :
    appendFormatRFC3339 (c.toTime nsec) [] false = c.dateText ++ c.zoneText := by
  rw [Civil.format_toTime c zmax hv hz99 nsec hns0 hns [] false]
  simp

theorem Civil.parseZone_zoneText (c : Civil) (hv : c.Valid 23) (t : Time) (ht : t.offset = 0) :
    parseZone t c.zoneText = some ⟨t.sec - c.zoneOffset, t.nsec, c.zoneOffset⟩ := by
  obtain ⟨_, _, _, _, _, _, _, _, _, _, _, _, hzh0, hzh, hzm0, hzm⟩ := hv
  unfold Civil.zoneText
  by_cases hz : c.zoneOffset = 0
  · cases t
    simp only at ht
    simp [hz, parseZone, ht]
  · simp only [hz, if_false, parseZone,
      parseUint_two c.zhour 0 23 hzh0 (by omega) hzh0 hzh,
      parseUint_two c.zmin 0 59 hzm0 (by omega) hzm0 hzm]
    cases hneg : c.zneg <;> simp [Civil.zoneOffset, hneg]

theorem Civil.parseFraction_zoneText (c : Civil) :
    parseFraction c.zoneText = (0, c.zoneText) := by
  unfold Civil.zoneText
  by_cases hz : c.zoneOffset = 0
  · simp [hz, parseFraction]
  · cases hneg : c.zneg <;> simp [hz, parseFraction]

/-- The date and clock fields that the fast path reads off the text of valid fields. -/
theorem Civil.parseRFC3339_text (c : Civil) (zmax : Int) (hv : c.Valid zmax) :
    parseRFC3339 (c.dateText ++ c.zoneText) =
      parseZone (Date c.year c.month c.day c.hour c.min c.sec 0) c.zoneText := by
  obtain ⟨hy0, hy, hm1, hm, hd1, hd, hh0, hh, hn0, hn, hs0, hs, hzh0, hzh, hzm0, hzm⟩ := hv
  have hd31 := daysIn_le c.month c.year hm1 hm
  simp only [Civil.dateText, List.cons_append, List.nil_append, parseRFC3339,
    parseUint_four c.year 0 9999 hy0 hy hy0 hy,
    parseUint_two c.month 1 12 (by omega) (by omega) hm1 hm,
    parseUint_two c.day 1 (daysIn c.month c.year) (by omega) (by omega) hd1 hd,
    parseUint_two c.hour 0 23 hh0 (by omega) hh0 hh,
    parseUint_two c.min 0 59 hn0 (by omega) hn0 hn,
    parseUint_two c.sec 0 59 hs0 (by omega) hs0 hs, and_self, if_true,
    Civil.parseFraction_zoneText]

/-- Parsing the RFC 3339 text of a time built from valid fields with a zone hour of at most
23 gives the same instant and offset, with the nanoseconds dropped. -/
theorem Civil.parse_format (c : Civil) (hv : c.Valid 23) (nsec : Int) (hns0 : 0 ≤ nsec)
    (hns : nsec < 1000000000) :
    parseRFC3339 (appendFormatRFC3339 (c.toTime nsec) [] false) = some (c.toTime 0) := by
  rw [Civil.format_text c 23 hv (by omega) nsec hns0 hns, Civil.parseRFC3339_text c 23 hv]
  have hv' := hv
  obtain ⟨hy0, hy, hm1, hm, hd1, hd, hh0, hh, hn0, hn, hs0, hs, hzh0, hzh, hzm0, hzm⟩ := hv
  rw [Civil.parseZone_zoneText c hv' _ (by
    rw [Date_eq c.year c.month c.day c.hour c.min c.sec 0 hm1 hm hh0 hh hn0 hn hs0 hs
      (by omega) (by omega)])]
  simp only [Civil.toTime, Date_eq c.year c.month c.day c.hour c.min c.sec 0 hm1 hm hh0 hh
    hn0 hn hs0 hs (by omega) (by omega)]

theorem parseDigits_bounds (ds : List Char) (x v : Int) (hx : 0 ≤ x)
    (h : parseDigits ds x = some v) :
    x * 10 ^ ds.length ≤ v ∧ v < (x + 1) * 10 ^ ds.length := by
  induction ds generalizing x with
  | nil =>
    simp only [parseDigits, Option.some.injEq] at h
    subst h
    simp
  | cons c cs ih =>
    simp only [parseDigits] at h
    split_ifs at h with hc
    have hd : (0 : Int) ≤ (c.toNat : Int) - 48 ∧ (c.toNat : Int) - 48 ≤ 9 := by
      simp only [isDigitChar, Bool.and_eq_true, decide_eq_true_eq] at hc
      obtain ⟨h1, h2⟩ := hc
      have h1' : ('0' : Char).toNat ≤ c.toNat := h1
      have h2' : c.toNat ≤ ('9' : Char).toNat := h2
      have e0 : ('0' : Char).toNat = 48 := by decide
      have e9 : ('9' : Char).toNat = 57 := by decide
      omega
    obtain ⟨l, u⟩ := ih (x * 10 + ((c.toNat : Int) - 48)) (by omega) h
    have hp : (0 : Int) < 10 ^ cs.length := by positivity
    simp only [List.length_cons, pow_succ]
    constructor
    · nlinarith
    · nlinarith

theorem parseNanoseconds_bounds (ds : List Char) :
    0 ≤ parseNanoseconds ds ∧ parseNanoseconds ds < 1000000000 := by
  unfold parseNanoseconds
  simp only []
  split
  · rename_i ns h
    obtain ⟨l, u⟩ := parseDigits_bounds _ 0 ns (by omega) h
    have hlen : (List.take 9 ds).length ≤ 9 := by simp
    have hp : (0 : Int) < 10 ^ (List.take 9 ds).length := by positivity
    have hq : (0 : Int) < 10 ^ (9 - (List.take 9 ds).length) := by positivity
    have hpq : (10 : Int) ^ (List.take 9 ds).length * 10 ^ (9 - (List.take 9 ds).length) =
        1000000000 := by
      rw [← pow_add]
      have : (List.take 9 ds).length + (9 - (List.take 9 ds).length) = 9 := by omega
      rw [this]; norm_num
    simp only [zero_mul, zero_add, one_mul] at l u
    constructor
    · positivity
    · calc ns * 10 ^ (9 - (List.take 9 ds).length)
          < 10 ^ (List.take 9 ds).length * 10 ^ (9 - (List.take 9 ds).length) := by
            exact mul_lt_mul_of_pos_right u hq
        _ = 1000000000 := hpq
  · omega

theorem parseFraction_bounds (s : List Char) :
    0 ≤ (parseFraction s).1 ∧ (parseFraction s).1 < 1000000000 := by
  unfold parseFraction
  split
  · split_ifs
    · exact parseNanoseconds_bounds _
    · simp
  · simp

theorem parseZone_inv (t t' : Time) (s : List Char) (ht : t.offset = 0)
    (h : parseZone t s = some t') :
    ∃ zh zm : Int, ∃ zn : Bool, 0 ≤ zh ∧ zh ≤ 23 ∧ 0 ≤ zm ∧ zm ≤ 59 ∧
      t' = ⟨t.sec - (if zn = true then -((zh * 60 + zm) * 60) else (zh * 60 + zm) * 60), t.nsec,
        if zn = true then -((zh * 60 + zm) * 60) else (zh * 60 + zm) * 60⟩ := by
  unfold parseZone at h
  split at h
  · simp only [Option.some.injEq] at h
    subst h
    refine ⟨0, 0, false, by omega, by omega, by omega, by omega, ?_⟩
    cases t
    simp only at ht
    simp [ht]
  · split at h
    · rename_i hr mm h1 h2
      obtain ⟨a0, a1⟩ := parseUint_range _ _ _ _ h1
      obtain ⟨b0, b1⟩ := parseUint_range _ _ _ _ h2
      split_ifs at h with hc hs
      · simp only [Option.some.injEq] at h
        subst h
        exact ⟨hr, mm, true, a0, a1, b0, b1, by simp⟩
      · simp only [Option.some.injEq] at h
        subst h
        exact ⟨hr, mm, false, a0, a1, b0, b1, by simp⟩
    · exact absurd h (by simp)
  · exact absurd h (by simp)

/-- Every time accepted by `parseRFC3339` is built from in-range calendar fields. -/
theorem parseRFC3339_inv (s : List Char) (t : Time) (h : parseRFC3339 s = some t) :
    ∃ c : Civil, ∃ nsec : Int, c.Valid 23 ∧ 0 ≤ nsec ∧ nsec < 1000000000 ∧ t = c.toTime nsec := by
  unfold parseRFC3339 at h
  split at h
  · split at h
    · rename_i year month hy hm
      split at h
      · rename_i day hour min sec hd hh hn hs
        split_ifs at h with hsep
        obtain ⟨y0, y1⟩ := parseUint_range _ _ _ _ hy
        obtain ⟨m0, m1⟩ := parseUint_range _ _ _ _ hm
        obtain ⟨d0, d1⟩ := parseUint_range _ _ _ _ hd
        obtain ⟨h0, h1⟩ := parseUint_range _ _ _ _ hh
        obtain ⟨n0, n1⟩ := parseUint_range _ _ _ _ hn
        obtain ⟨s0, s1⟩ := parseUint_range _ _ _ _ hs
        rename_i rest _ _ _ _ _ _
        obtain ⟨f0, f1⟩ := parseFraction_bounds rest
        have hD := Date_eq year month day hour min sec (parseFraction rest).1 m0 m1 h0 h1 n0 n1
          s0 s1 f0 f1
        have h' : parseZone (Date year month day hour min sec (parseFraction rest).1)
            (parseFraction rest).2 = some t := h
        have hoff : (Date year month day hour min sec (parseFraction rest).1).offset = 0 := by
          rw [hD]
        obtain ⟨zh, zm, zn, z0, z1, z2, z3, ht⟩ := parseZone_inv _ t _ hoff h'
        refine ⟨⟨year, month, day, hour, min, sec, zh, zm, zn⟩, (parseFraction rest).1,
          ⟨y0, y1, m0, m1, d0, d1, h0, h1, n0, n1, s0, s1, z0, z1, z2, z3⟩, f0, f1, ?_⟩
        rw [ht]
        simp only [Civil.toTime, Civil.zoneOffset, hD]
      · exact absurd h (by simp)
    · exact absurd h (by simp)
  · exact absurd h (by simp)

/-! ## The layout-driven parser -/

theorem digitChar_ne (n : Int) (h0 : 0 ≤ n) (h9 : n ≤ 9) :
    digitChar n ≠ '-' ∧ digitChar n ≠ '+' ∧ digitChar n ≠ '.' ∧ digitChar n ≠ ',' ∧
      digitChar n ≠ 'Z' := by
  interval_cases n <;> decide

theorem isDigitChar_bounds (c : Char) (h : isDigitChar c = true) :
    (0 : Int) ≤ (c.toNat : Int) - 48 ∧ (c.toNat : Int) - 48 ≤ 9 := by
  simp only [isDigitChar, Bool.and_eq_true, decide_eq_true_eq] at h
  obtain ⟨h1, h2⟩ := h
  have h1' : ('0' : Char).toNat ≤ c.toNat := h1
  have h2' : c.toNat ≤ ('9' : Char).toNat := h2
  have e0 : ('0' : Char).toNat = 48 := by decide
  have e9 : ('9' : Char).toNat = 57 := by decide
  omega

theorem getnum_two (u : Int) (h0 : 0 ≤ u) (h1 : u ≤ 99) (rest : List Char) (fixed : Bool) :
    getnum (digitChar (u / 10) :: digitChar (u % 10) :: rest) fixed = some (u, rest) := by
  obtain ⟨a1, a2⟩ := digitChar_spec (u / 10) (by omega) (by omega)
  obtain ⟨b1, b2⟩ := digitChar_spec (u % 10) (by omega) (by omega)
  simp only [getnum, a1, b1, if_true, a2, b2, Option.some.injEq, Prod.mk.injEq, and_true]
  omega

theorem getnum_bounds (s : List Char) (fixed : Bool) (v : Int) (rest : List Char)
    (h : getnum s fixed = some (v, rest)) : 0 ≤ v ∧ v ≤ 99 := by
  cases s with
  | nil => simp [getnum] at h
  | cons c0 tail =>
    by_cases hc0 : isDigitChar c0 = true
    · have b0 := isDigitChar_bounds c0 hc0
      cases tail with
      | nil =>
        simp only [getnum, hc0, if_true] at h
        split_ifs at h
        simp only [Option.some.injEq, Prod.mk.injEq] at h
        omega
      | cons c1 tail1 =>
        by_cases hc1 : isDigitChar c1 = true
        · have b1 := isDigitChar_bounds c1 hc1
          simp only [getnum, hc0, hc1, if_true, Option.some.injEq, Prod.mk.injEq] at h
          obtain ⟨h, _⟩ := h
          obtain ⟨b1l, b1u⟩ := b1
          obtain ⟨b0l, b0u⟩ := b0
          omega
        · rw [Bool.not_eq_true] at hc1
          simp only [getnum, hc0, hc1, if_true, Bool.false_eq_true, if_false] at h
          split_ifs at h
          simp only [Option.some.injEq, Prod.mk.injEq] at h
          omega
    · simp [getnum, hc0] at h

theorem parseLongYear_four (u : Int) (h0 : 0 ≤ u) (h1 : u ≤ 9999) (rest : List Char) :
    parseLongYear (digitChar (u / 1000) :: digitChar (u / 100 % 10) ::
      digitChar (u / 10 % 10) :: digitChar (u % 10) :: rest) = some (u, rest) := by
  obtain ⟨a1, _⟩ := digitChar_spec (u / 1000) (by omega) (by omega)
  obtain ⟨n1, n2, _⟩ := digitChar_ne (u / 1000) (by omega) (by omega)
  simp only [parseLongYear, a1, if_true, atoi, if_neg n1, if_neg n2,
    parseDigits_four u h0 h1]

theorem parseLongYear_bounds (s : List Char) (year : Int) (rest : List Char)
    (h : parseLongYear s = some (year, rest)) : 0 ≤ year ∧ year ≤ 9999 := by
  unfold parseLongYear at h
  split at h
  · rename_i y0 y1 y2 y3 tail
    split_ifs at h with hy0
    split at h
    · rename_i yr hat
      simp only [Option.some.injEq, Prod.mk.injEq] at h
      obtain ⟨rfl, _⟩ := h
      have hne1 : y0 ≠ '-' := by
        intro hc; rw [hc] at hy0; exact absurd hy0 (by decide)
      have hne2 : y0 ≠ '+' := by
        intro hc; rw [hc] at hy0; exact absurd hy0 (by decide)
      simp only [atoi, if_neg hne1, if_neg hne2] at hat
      obtain ⟨l, u⟩ := parseDigits_bounds _ 0 yr (by omega) hat
      simp only [List.length_cons, List.length_nil] at l u
      norm_num at l u
      omega
    · exact absurd h (by simp)
  · exact absurd h (by simp)

theorem skip_cons (c : Char) (rest : List Char) : skip (c :: rest) c = some rest := by
  simp [skip]

theorem Civil.parseDateClock_text (c : Civil) (zmax : Int) (hv : c.Valid zmax)
    (rest : List Char) :
    parseDateClock (c.dateText ++ rest) =
      some (c.year, c.month, c.day, c.hour, c.min, c.sec, rest) := by
  obtain ⟨hy0, hy, hm1, hm, hd1, hd, hh0, hh, hn0, hn, hs0, hs, _⟩ := hv
  have hd31 := daysIn_le c.month c.year hm1 hm
  have em : ¬ (c.month ≤ 0 ∨ 12 < c.month) := by omega
  have eh : ¬ (c.hour < 0 ∨ 24 ≤ c.hour) := by omega
  have en : ¬ (c.min < 0 ∨ 60 ≤ c.min) := by omega
  have es : ¬ (c.sec < 0 ∨ 60 ≤ c.sec) := by omega
  simp only [Civil.dateText, List.cons_append, List.nil_append, parseDateClock,
    parseLongYear_four c.year hy0 hy, skip_cons,
    getnum_two c.month (by omega) (by omega), if_neg em,
    getnum_two c.day (by omega) (by omega),
    getnum_two c.hour hh0 (by omega), if_neg eh,
    getnum_two c.min hn0 (by omega), if_neg en,
    getnum_two c.sec hs0 (by omega), if_neg es]

theorem Civil.parseFractionAny_zoneText (c : Civil) :
    parseFractionAny c.zoneText = (0, c.zoneText) := by
  unfold Civil.zoneText
  by_cases hz : c.zoneOffset = 0
  · simp [hz, parseFractionAny]
  · cases hneg : c.zneg <;> simp [hz, parseFractionAny]

theorem Civil.parseColonTZ_zoneText (c : Civil) (hv : c.Valid 24) :
    parseColonTZ c.zoneText =
      some (if c.zoneOffset = 0 then none else some c.zoneOffset, []) := by
  obtain ⟨_, _, _, _, _, _, _, _, _, _, _, _, hzh0, hzh, hzm0, hzm⟩ := hv
  unfold Civil.zoneText
  by_cases hz : c.zoneOffset = 0
  · simp [hz, parseColonTZ]
  · have er : ¬ (c.zhour > 24 ∨ c.zmin > 60) := by omega
    simp only [hz, if_false]
    cases hneg : c.zneg
    · have hzo : c.zoneOffset = (c.zhour * 60 + c.zmin) * 60 := by
        simp [Civil.zoneOffset, hneg]
      simp [parseColonTZ, getnum_two c.zhour hzh0 (by omega),
        getnum_two c.zmin hzm0 (by omega), er, hzo]
    · have hzo : c.zoneOffset = -((c.zhour * 60 + c.zmin) * 60) := by
        simp [Civil.zoneOffset, hneg]
      simp [parseColonTZ, getnum_two c.zhour hzh0 (by omega),
        getnum_two c.zmin hzm0 (by omega), er, hzo]

/-- The layout-driven parser reads the RFC 3339 text of valid fields, zone hour 24
included, back to the same instant and offset. -/
theorem Civil.parse_text (c : Civil) (hv : c.Valid 24) :
    parse (c.dateText ++ c.zoneText) = some (c.toTime 0) := by
  have hv' := hv
  obtain ⟨hy0, hy, hm1, hm, hd1, hd, hh0, hh, hn0, hn, hs0, hs, _⟩ := hv
  have ed : ¬ (c.day < 1 ∨ c.day > daysIn c.month c.year) := by omega
  have hD := Date_eq c.year c.month c.day c.hour c.min c.sec 0 hm1 hm hh0 hh hn0 hn hs0 hs
    (by omega) (by omega)
  simp only [parse, Civil.parseDateClock_text c 24 hv', Civil.parseFractionAny_zoneText,
    Civil.parseColonTZ_zoneText c hv', ne_eq, not_true_eq_false, if_false, if_neg ed]
  by_cases hz : c.zoneOffset = 0
  · simp only [hz, if_true, Civil.toTime, hD, sub_zero]
  · simp only [hz, if_false, Civil.toTime, hD]

/-- The fast path rejects the text of fields whose zone hour is 24. -/
theorem Civil.parseRFC3339_text_none (c : Civil) (hv : c.Valid 24) (h24 : c.zhour = 24) :
    parseRFC3339 (c.dateText ++ c.zoneText) = none := by
  rw [Civil.parseRFC3339_text c 24 hv]
  obtain ⟨_, _, _, _, _, _, _, _, _, _, _, _, hzh0, hzh, hzm0, hzm⟩ := hv
  have hz : c.zoneOffset ≠ 0 := by
    unfold Civil.zoneOffset
    split_ifs <;> omega
  have hn : parseUint [digitChar (c.zhour / 10), digitChar (c.zhour % 10)] 0 23 = none := by
    have hr : (24 : Int) < 0 ∨ (23 : Int) < 24 := by omega
    rw [h24]
    simp only [parseUint, parseDigits_two 24 (by omega) (by omega), if_pos hr]
  simp only [Civil.zoneText, if_neg hz, parseZone, hn]

/-- `time.Parse` reads the `time.RFC3339` text of a time built from valid fields, zone hour
24 included, back to the same instant and offset, with the nanoseconds dropped. -/
theorem Civil.Parse_format (c : Civil) (hv : c.Valid 24) (nsec : Int) (hns0 : 0 ≤ nsec)
    (hns : nsec < 1000000000) :
    Parse (appendFormatRFC3339 (c.toTime nsec) [] false) = some (c.toTime 0) := by
  rw [Civil.format_text c 24 hv (by omega) nsec hns0 hns]
  unfold Parse
  by_cases h24 : c.zhour = 24
  · rw [Civil.parseRFC3339_text_none c hv h24]
    exact Civil.parse_text c hv
  · have hv23 : c.Valid 23 := by
      obtain ⟨a1, a2, a3, a4, a5, a6, a7, a8, a9, a10, a11, a12, a13, a14, a15, a16⟩ := hv
      exact ⟨a1, a2, a3, a4, a5, a6, a7, a8, a9, a10, a11, a12, a13, by omega, a15, a16⟩
    have := Civil.parse_format c hv23 nsec hns0 hns
    rw [Civil.format_text c 23 hv23 (by omega) nsec hns0 hns] at this
    rw [this]

theorem parseDateClock_inv (s : List Char) (year month day hour min sec : Int)
    (rest : List Char)
    (h : parseDateClock s = some (year, month, day, hour, min, sec, rest)) :
    0 ≤ year ∧ year ≤ 9999 ∧ 1 ≤ month ∧ month ≤ 12 ∧ 0 ≤ hour ∧ hour ≤ 23 ∧
      0 ≤ min ∧ min ≤ 59 ∧ 0 ≤ sec ∧ sec ≤ 59 := by
  unfold parseDateClock at h
  split at h
  · exact absurd h (by simp)
  · rename_i y v1 hy
    split at h
    · exact absurd h (by simp)
    · split at h
      · exact absurd h (by simp)
      · rename_i mo v3 hmo
        split_ifs at h with cm
        split at h
        · exact absurd h (by simp)
        · split at h
          · exact absurd h (by simp)
          · rename_i dd v5 hdd
            split at h
            · exact absurd h (by simp)
            · split at h
              · exact absurd h (by simp)
              · rename_i hh v7 hhh
                split_ifs at h with ch
                split at h
                · exact absurd h (by simp)
                · split at h
                  · exact absurd h (by simp)
                  · rename_i mi v9 hmi
                    split_ifs at h with cn
                    split at h
                    · exact absurd h (by simp)
                    · split at h
                      · exact absurd h (by simp)
                      · rename_i ss v11 hss
                        split_ifs at h with cs
                        simp only [Option.some.injEq, Prod.mk.injEq] at h
                        obtain ⟨e1, e2, e3, e4, e5, e6, e7⟩ := h
                        subst e1 e2 e3 e4 e5 e6
                        obtain ⟨y0, y1⟩ := parseLongYear_bounds _ _ _ hy
                        exact ⟨y0, y1, by omega, by omega, by omega, by omega, by omega,
                          by omega, by omega, by omega⟩

theorem parseFractionAny_bounds (s : List Char) :
    0 ≤ (parseFractionAny s).1 ∧ (parseFractionAny s).1 < 1000000000 := by
  unfold parseFractionAny
  split
  · split_ifs
    · exact parseNanoseconds_bounds _
    · simp
  · simp

theorem parseColonTZ_inv (s : List Char) (z : Option Int) (rest : List Char)
    (h : parseColonTZ s = some (z, rest)) :
    z = none ∨ ∃ hr mm : Int, ∃ zn : Bool, 0 ≤ hr ∧ hr ≤ 24 ∧ 0 ≤ mm ∧ mm ≤ 60 ∧
      z = some (if zn = true then -((hr * 60 + mm) * 60) else (hr * 60 + mm) * 60) := by
  cases s with
  | nil => simp [parseColonTZ] at h
  | cons sign tail =>
    by_cases hZ : sign = 'Z'
    · simp only [parseColonTZ, hZ, if_true, Option.some.injEq, Prod.mk.injEq] at h
      exact Or.inl h.1.symm
    · simp only [parseColonTZ, hZ, if_false] at h
      split at h
      · rename_i h0 h1 c m0 m1 tl
        by_cases hc : c ≠ ':'
        · rw [if_pos hc] at h
          exact absurd h (by simp)
        · rw [if_neg hc] at h
          split at h
          · rename_i hr r1 mm r2 ghr gmm
            obtain ⟨a0, a1⟩ := getnum_bounds _ _ _ _ ghr
            obtain ⟨b0, b1⟩ := getnum_bounds _ _ _ _ gmm
            by_cases hrange : hr > 24 ∨ mm > 60
            · rw [if_pos hrange] at h
              exact absurd h (by simp)
            · rw [if_neg hrange] at h
              by_cases hplus : sign = '+'
              · rw [if_pos hplus] at h
                simp only [Option.some.injEq, Prod.mk.injEq] at h
                exact Or.inr ⟨hr, mm, false, a0, by omega, b0, by omega, by
                  rw [← h.1]; simp⟩
              · by_cases hminus : sign = '-'
                · rw [if_neg hplus, if_pos hminus] at h
                  simp only [Option.some.injEq, Prod.mk.injEq] at h
                  exact Or.inr ⟨hr, mm, true, a0, by omega, b0, by omega, by
                    rw [← h.1]; simp⟩
                · rw [if_neg hplus, if_neg hminus] at h
                  exact absurd h (by simp)
          · exact absurd h (by simp)
      · exact absurd h (by simp)

/-- Every time accepted by the layout-driven parser is built from in-range calendar fields
and a zone of at most 25 hours, the 25 hours being reached only by `24:60`. -/
theorem parse_inv (s : List Char) (t : Time) (h : parse s = some t) :
    ∃ c : Civil, ∃ nsec : Int, c.Valid 25 ∧ 0 ≤ nsec ∧ nsec < 1000000000 ∧
      t = c.toTime nsec ∧ (c.zhour = 25 → c.zmin = 0) := by
  unfold parse at h
  split at h
  · exact absurd h (by simp)
  · rename_i year month day hour min sec value hdc
    obtain ⟨y0, y1, m0, m1, h0, h1, n0, n1, s0, s1⟩ := parseDateClock_inv _ _ _ _ _ _ _ _ hdc
    obtain ⟨f0, f1⟩ := parseFractionAny_bounds value
    have hD := Date_eq year month day hour min sec (parseFractionAny value).1 m0 m1 h0 h1 n0 n1
      s0 s1 f0 f1
    split at h
    · exact absurd h (by simp)
    · rename_i z rest hz
      split_ifs at h with hrest hday
      have d0 : 1 ≤ day := by omega
      have d1 : day ≤ daysIn month year := by omega
      rcases parseColonTZ_inv _ _ _ hz with hzn | ⟨hr, mm, zn, a0, a1, b0, b1, hzs⟩
      · subst hzn
        simp only [Option.some.injEq] at h
        refine ⟨⟨year, month, day, hour, min, sec, 0, 0, false⟩, (parseFractionAny value).1,
          ⟨y0, y1, m0, m1, d0, d1, h0, h1, n0, n1, s0, s1, le_refl _, by norm_num, le_refl _,
            by norm_num⟩, f0, f1, ?_, by intro hc; simp at hc⟩
        rw [← h, hD]
        simp [Civil.toTime, Civil.zoneOffset, hD]
      · subst hzs
        simp only [Option.some.injEq] at h
        refine ⟨⟨year, month, day, hour, min, sec, (hr * 60 + mm) / 60, (hr * 60 + mm) % 60,
          zn⟩, (parseFractionAny value).1,
          ⟨y0, y1, m0, m1, d0, d1, h0, h1, n0, n1, s0, s1,
            by show (0 : Int) ≤ (hr * 60 + mm) / 60; omega,
            by show (hr * 60 + mm) / 60 ≤ 25; omega,
            by show (0 : Int) ≤ (hr * 60 + mm) % 60; omega,
            by show (hr * 60 + mm) % 60 ≤ 59; omega⟩, f0, f1, ?_, by
              intro hc
              have hc' : (hr * 60 + mm) / 60 = 25 := hc
              show (hr * 60 + mm) % 60 = 0
              omega⟩
        have e : ((hr * 60 + mm) / 60 * 60 + (hr * 60 + mm) % 60) = hr * 60 + mm := by omega
        rw [← h, hD]
        simp only [Civil.toTime, Civil.zoneOffset, hD, e]

/-- Every time accepted by `time.Parse` with the layout `time.RFC3339` is built from in-range
calendar fields and a zone of at most 25 hours. -/
theorem Parse_inv (s : List Char) (t : Time) (h : Parse s = some t) :
    ∃ c : Civil, ∃ nsec : Int, c.Valid 25 ∧ 0 ≤ nsec ∧ nsec < 1000000000 ∧
      t = c.toTime nsec ∧ (c.zhour = 25 → c.zmin = 0) := by
  unfold Parse at h
  split at h
  · rename_i t' hfast
    simp only [Option.some.injEq] at h
    subst h
    obtain ⟨c, nsec, hv, f0, f1, ht⟩ := parseRFC3339_inv s t' hfast
    obtain ⟨a1, a2, a3, a4, a5, a6, a7, a8, a9, a10, a11, a12, a13, a14, a15, a16⟩ := hv
    exact ⟨c, nsec, ⟨a1, a2, a3, a4, a5, a6, a7, a8, a9, a10, a11, a12, a13, by omega, a15,
      a16⟩, f0, f1, ht, by intro hc; omega⟩
  · exact parse_inv s t h

/-- Round trip through the stored text: a time accepted by `time.Parse` whose zone is not the
25 hours of `24:60`, formatted with `time.RFC3339` and parsed back, is the same instant and
offset with the nanoseconds dropped. -/
theorem Parse_format_roundtrip (s : List Char) (t : Time) (h : Parse s = some t)
    (hp : t.offset ≠ 90000) (hn : t.offset ≠ -90000) :
    Parse (appendFormatRFC3339 t [] false) = some ⟨t.sec, 0, t.offset⟩ := by
  obtain ⟨c, nsec, hv, f0, f1, rfl, h25⟩ := Parse_inv s t h
  have hoff : (c.toTime nsec).offset = c.zoneOffset := rfl
  rw [hoff] at hp hn
  obtain ⟨a1, a2, a3, a4, a5, a6, a7, a8, a9, a10, a11, a12, a13, a14, a15, a16⟩ := hv
  have h24 : c.zhour ≤ 24 := by
    by_contra hc
    have e25 : c.zhour = 25 := by omega
    have em := h25 e25
    unfold Civil.zoneOffset at hp hn
    cases hneg : c.zneg <;> simp [hneg, e25, em] at hp hn
  have hv24 : c.Valid 24 := ⟨a1, a2, a3, a4, a5, a6, a7, a8, a9, a10, a11, a12, a13, h24, a15, a16⟩
  rw [Civil.Parse_format c hv24 nsec f0 f1]
  simp only [Civil.toTime, Date_eq c.year c.month c.day c.hour c.min c.sec 0 a3 a4 a7 a8
    a9 a10 a11 a12 (by omega) (by omega), Date_eq c.year c.month c.day c.hour c.min c.sec nsec
    a3 a4 a7 a8 a9 a10 a11 a12 f0 f1]

/-! ## `Time.MarshalJSON` -/

theorem appendInt_append (b : List Char) (x : Int) (width : Nat) :
    ∃ ds : List Char, appendInt b x width = b ++ ds := by
  unfold appendInt
  by_cases hx : x < 0
  · simp only [hx, if_true]
    split_ifs
    · exact ⟨_, by rw [List.append_assoc]⟩
    · exact ⟨_, by rw [List.append_assoc]⟩
    · exact ⟨_, by rw [List.append_assoc, List.append_assoc]⟩
  · simp only [hx, if_false]
    split_ifs
    · exact ⟨_, rfl⟩
    · exact ⟨_, rfl⟩
    · exact ⟨_, by rw [List.append_assoc]⟩

theorem dropWhile_append_stop (p : Char → Bool) (l m : List Char) (c : Char) (hc : p c = false) :
    (l ++ c :: m).dropWhile p = l.dropWhile p ++ c :: m := by
  induction l with
  | nil => simp [List.dropWhile, hc]
  | cons a l ih =>
    by_cases ha : p a = true
    · simp [List.dropWhile, ha, ih]
    · rw [Bool.not_eq_true] at ha
      simp [List.dropWhile, ha]

theorem appendNano_append (b : List Char) (nanosec : Int) :
    ∃ frac : List Char, appendNano b nanosec = b ++ frac := by
  unfold appendNano
  split_ifs
  · exact ⟨[], by simp⟩
  · obtain ⟨ds, hds⟩ := appendInt_append (b ++ ['.']) nanosec 9
    have hp : (fun c : Char => c == '0') '.' = false := by decide
    have h2 : ((b ++ ['.'] ++ ds).reverse.dropWhile (fun c => c == '0')).reverse =
        b ++ '.' :: (ds.reverse.dropWhile (fun c => c == '0')).reverse := by
      have e : (b ++ ['.'] ++ ds).reverse = ds.reverse ++ '.' :: b.reverse := by simp
      rw [e, dropWhile_append_stop (fun c => c == '0') ds.reverse b.reverse '.' hp]
      simp
    simp only [hds, h2]
    generalize (ds.reverse.dropWhile (fun c => c == '0')).reverse = ds'
    have e3 : (b ++ '.' :: ds').reverse = ds'.reverse ++ '.' :: b.reverse := by simp
    rw [e3]
    cases hr : ds'.reverse with
    | nil => exact ⟨[], by simp⟩
    | cons a tl =>
      simp only [List.cons_append]
      split
      · rename_i rest heq
        simp only [List.cons.injEq] at heq
        obtain ⟨_, hrest⟩ := heq
        exact ⟨'.' :: tl.reverse, by rw [← hrest]; simp⟩
      · exact ⟨_, rfl⟩

theorem digitChar_toNat (n : Int) (h0 : 0 ≤ n) (h9 : n ≤ 9) :
    (digitChar n).toNat = 48 + n.toNat ∧ ¬ ('0' ≤ '+' ∧ '+' ≤ '9') ∧ digitChar n ≠ 'Z' := by
  interval_cases n <;> decide

theorem num2_digits (u : Int) (h0 : 0 ≤ u) (h1 : u ≤ 99) :
    num2 (digitChar (u / 10)) (digitChar (u % 10)) = u.toNat := by
  obtain ⟨a, _⟩ := digitChar_toNat (u / 10) (by omega) (by omega)
  obtain ⟨b, _⟩ := digitChar_toNat (u % 10) (by omega) (by omega)
  unfold num2
  rw [a, b]
  omega

/-- `Time.MarshalJSON` succeeds on a time built from valid fields with a zone hour of at most
23. -/
theorem Civil.MarshalJSON_ok (c : Civil) (hv : c.Valid 23) (nsec : Int) (hns0 : 0 ≤ nsec)
    (hns : nsec < 1000000000) : ∃ text : String, (c.toTime nsec).MarshalJSON = .ok text := by
  have hf := Civil.format_toTime c 23 hv (by omega) nsec hns0 hns ['"'] true
  simp only [if_true] at hf
  obtain ⟨frac, hfrac⟩ := appendNano_append (['"'] ++ c.dateText) nsec
  rw [hfrac] at hf
  obtain ⟨_, _, _, _, _, _, _, _, _, _, _, _, hzh0, hzh, hzm0, hzm⟩ := hv
  have h4 : (['"'] ++ c.dateText ++ frac ++ c.zoneText).getD (['"'].length + 4) ' ' = '-' := by
    simp [Civil.dateText]
  have hnone : (appendStrictRFC3339 (c.toTime nsec) ['"']).2 = none := by
    unfold appendStrictRFC3339
    simp only [hf]
    have hn4 : ¬ (['"'] ++ c.dateText ++ frac ++ c.zoneText).getD (['"'].length + 4) ' ' ≠
        '-' := by rw [h4]; simp
    rw [if_neg hn4]
    have hrev : (['"'] ++ c.dateText ++ frac ++ c.zoneText).reverse =
        c.zoneText.reverse ++ (['"'] ++ c.dateText ++ frac).reverse := by
      rw [List.reverse_append]
    rw [hrev]
    by_cases hz : c.zoneOffset = 0
    · simp only [Civil.zoneText, hz, if_true, List.reverse_cons, List.reverse_nil,
        List.nil_append, List.cons_append]
      split
      · rename_i heq
        simp only [List.cons.injEq] at heq
        obtain ⟨h1, _⟩ := heq
        split_ifs with hh
        · exact absurd h1.symm hh.1
        · rfl
      · rfl
    · obtain ⟨_, _, hm2⟩ := digitChar_toNat (c.zmin % 10) (by omega) (by omega)
      have hnum := num2_digits c.zhour hzh0 (by omega)
      have hsign : ¬ ('0' ≤ (if c.zneg = true then '-' else '+') ∧
          (if c.zneg = true then '-' else '+') ≤ '9') := by
        cases c.zneg <;> decide
      have hcond : ¬ (digitChar (c.zmin % 10) ≠ 'Z' ∧
          (('0' ≤ (if c.zneg = true then '-' else '+') ∧
            (if c.zneg = true then '-' else '+') ≤ '9') ∨
            num2 (digitChar (c.zhour / 10)) (digitChar (c.zhour % 10)) ≥ 24)) := by
        rw [hnum]
        intro hh
        rcases hh.2 with h | h
        · exact hsign h
        · omega
      simp only [Civil.zoneText, hz, if_false, List.reverse_cons, List.reverse_nil,
        List.nil_append, List.cons_append, List.singleton_append, if_neg hcond]
  unfold Time.MarshalJSON
  split
  · exact ⟨_, rfl⟩
  · rename_i b err heq
    rw [heq] at hnone
    exact absurd hnone (by simp)

/-- `Time.MarshalJSON` succeeds on every time accepted by `time.Parse` whose zone offset is
below 24 hours. -/
theorem MarshalJSON_of_Parse (s : List Char) (t : Time) (h : Parse s = some t)
    (hlo : -86400 < t.offset) (hhi : t.offset < 86400) :
    ∃ text : String, t.MarshalJSON = .ok text := by
  obtain ⟨c, nsec, hv, f0, f1, rfl, _⟩ := Parse_inv s t h
  have hoff : (c.toTime nsec).offset = c.zoneOffset := rfl
  rw [hoff] at hlo hhi
  obtain ⟨a1, a2, a3, a4, a5, a6, a7, a8, a9, a10, a11, a12, a13, a14, a15, a16⟩ := hv
  have h23 : c.zhour ≤ 23 := by
    unfold Civil.zoneOffset at hlo hhi
    cases hneg : c.zneg <;> simp only [hneg, if_true, if_false, Bool.false_eq_true] at hlo hhi <;>
      omega
  exact Civil.MarshalJSON_ok c
    ⟨a1, a2, a3, a4, a5, a6, a7, a8, a9, a10, a11, a12, a13, h23, a15, a16⟩ nsec f0 f1

set_option maxRecDepth 100000

/-! ## The handler -/

theorem toInt_of_int64 (n : Int) (hlo : -(2 : Int) ^ 63 ≤ n) (hhi : n < 2 ^ 63) : toInt n = n := by
  unfold toInt intBits
  norm_num at hlo hhi ⊢
  omega

theorem addCita_counting {σ : Type} (drv : Driver σ) (s : σ) (k : Nat) (c : Cita) :
    (addCita (counting drv) (s, k) c).2.2 = k + 1 := by
  unfold addCita
  simp only [counting]
  split
  · rename_i h
    simp only [Prod.mk.injEq] at h
    rw [← h.2]
  · rename_i h
    simp only [Prod.mk.injEq] at h
    split <;> rw [← h.2]

/-- What the handler does on a valid POST, in terms of `addCita` and `Encode`. -/
theorem handleAddCita_valid {σ : Type} (decode : String → Except String Cita)
    (drv : Driver σ) (s : σ) (r : Request) (c : Cita)
    (hm : r.method = MethodPost) (hd : decode r.body = .ok c)
    (hn : c.Nombres ≠ "") (ha : c.Apellidos ≠ "") (hf : c.FechaCita.IsZero = false) :
    handleAddCita decode drv s r =
      match addCita drv s c with
      | (.error err, s) =>
        ⟨httpError "Error interno del servidor al guardar la cita" StatusInternalServerError,
          ["Error al añadir cita a la DB: " ++ err], s⟩
      | (.ok id, s) =>
        ⟨⟨StatusOK, [("Content-Type", "application/json")],
            (Encode [("message", .string "Cita agendada con éxito"), ("id", .int64 id),
              ("cita", .cita { c with ID := toInt id })]).2⟩,
          ["Cita agendada con éxito, ID: " ++ toString id], s⟩ := by
  have hv : ¬ (c.Nombres = "" ∨ c.Apellidos = "" ∨ c.FechaCita.IsZero = true) := by
    simp [hn, ha, hf]
  have hmm : ¬ r.method ≠ MethodPost := by simp [hm]
  unfold handleAddCita
  rw [if_neg hmm, hd]
  simp only [if_neg hv]

/-- `Encode` writes the response map when the appointment in it has a `fecha_cita` that
marshals. -/
theorem Encode_ok (msg : String) (id : Int) (c : Cita) (text : String)
    (h : c.FechaCita.MarshalJSON = .ok text) :
    Encode [("message", .string msg), ("id", .int64 id), ("cita", .cita c)] =
      (.ok (), .json [("message", .string msg), ("id", .int64 id), ("cita", .cita c)]) := by
  simp [Encode, List.findSome?, JsonValue.marshalError, h]

/-- `Encode` writes nothing when the appointment in the map has a `fecha_cita` that does not
marshal. -/
theorem Encode_error (msg : String) (id : Int) (c : Cita) (e : String)
    (h : c.FechaCita.MarshalJSON = .error e) :
    (Encode [("message", .string msg), ("id", .int64 id), ("cita", .cita c)]).2 = .empty := by
  simp [Encode, List.findSome?, JsonValue.marshalError, h]

/-- C1 (the code at the failing input): the POST `requestZone24`, whose `fecha_cita` is
`2025-06-15T09:30:00+24:00`, decodes to an appointment with non-empty `nombres` and
`apellidos` and a non-zero `fecha_cita`. On every driver and store on which `addCita`
returns an identifier `n` for it, `Encode` then fails on the appointment, because
`Time.MarshalJSON` refuses a zone hour of 24, and the handler drops that error: the response
is 200 with the JSON content type and an empty body, not the JSON object with the message,
the id and the appointment, and the success line is logged. -/
theorem handleAddCita_drops_encode_error {σ : Type} (drv : Driver σ) (s : σ) (n : Int)
    (hadd : (addCita drv s citaZone24).1 = .ok n) :
    decodeCita requestZone24.body = .ok citaZone24 ∧
      citaZone24.Nombres ≠ "" ∧ citaZone24.Apellidos ≠ "" ∧
      citaZone24.FechaCita.IsZero = false ∧
      (Encode [("message", .string "Cita agendada con éxito"), ("id", .int64 n),
          ("cita", .cita { citaZone24 with ID := toInt n })]).1 =
        .error ("json: error calling MarshalJSON for type time.Time: " ++
          "Time.MarshalJSON: timezone hour outside of range [0,23]") ∧
      (handleAddCita decodeCita drv s requestZone24).response =
        ⟨200, [("Content-Type", "application/json")], .empty⟩ ∧
      (handleAddCita decodeCita drv s requestZone24).response.id = none ∧
      (handleAddCita decodeCita drv s requestZone24).log =
        ["Cita agendada con éxito, ID: " ++ toString n] ∧
      (handleAddCita decodeCita drv s requestZone24).db = (addCita drv s citaZone24).2 := by
  have hj0 : citaZone24.FechaCita.MarshalJSON =
      .error "Time.MarshalJSON: timezone hour outside of range [0,23]" := by rfl
  have hj : ({ citaZone24 with ID := toInt n } : Cita).FechaCita.MarshalJSON =
      .error "Time.MarshalJSON: timezone hour outside of range [0,23]" := hj0
  have henc : (Encode [("message", .string "Cita agendada con éxito"), ("id", .int64 n),
      ("cita", .cita { citaZone24 with ID := toInt n })]) =
      (.error ("json: error calling MarshalJSON for type time.Time: " ++
          "Time.MarshalJSON: timezone hour outside of range [0,23]"), .empty) := by
    simp [Encode, List.findSome?, JsonValue.marshalError, hj]
  have key : handleAddCita decodeCita drv s requestZone24 =
      ⟨⟨200, [("Content-Type", "application/json")], .empty⟩,
        ["Cita agendada con éxito, ID: " ++ toString n], (addCita drv s citaZone24).2⟩ := by
    rw [handleAddCita_valid decodeCita drv s requestZone24 citaZone24 (by rfl) (by rfl)
      (by decide) (by decide) (by rfl)]
    split
    · rename_i h
      rw [h] at hadd
      exact absurd hadd (by simp)
    · rename_i id s' h
      rw [h] at hadd
      simp only [Except.ok.injEq] at hadd
      subst hadd
      rw [henc, h]
      rfl
  rw [key, henc]
  exact ⟨by rfl, by decide, by decide, by rfl, rfl, rfl, rfl, rfl, rfl⟩

/-- C1 at the SQLite store with an open handle and an empty table: `addCita` returns 1, one
statement is executed, the row is stored, and the response is 200 with an empty body. -/
theorem handleAddCita_drops_encode_error_witness :
    (addCita sqlite readyStore citaZone24).1 = .ok 1 ∧
      (handleAddCita decodeCita (counting sqlite) (readyStore, 0) requestZone24).db.2 = 1 ∧
      (handleAddCita decodeCita sqlite readyStore requestZone24).response =
        ⟨200, [("Content-Type", "application/json")], .empty⟩ ∧
      (handleAddCita decodeCita sqlite readyStore requestZone24).log =
        ["Cita agendada con éxito, ID: " ++ toString (1 : Int)] ∧
      (handleAddCita decodeCita sqlite readyStore requestZone24).db.table =
        some ⟨[⟨1, [.text "", .text "", .text "Ana", .text "Lopez", .text "", .text "",
          .text "", .text "", .text "2025-06-15T09:30:00+24:00"]⟩], 1⟩ :=
  have h := handleAddCita_drops_encode_error sqlite readyStore 1 (by rfl)
  ⟨by rfl, by rfl, h.2.2.2.2.2.1, h.2.2.2.2.2.2.2.1, by rfl⟩

/-- C2: a POST whose body decodes to an appointment with empty `nombres`, empty `apellidos`
or a zero `fecha_cita` gets 400 with the one fixed missing-fields message, whichever of the
three is missing; `addCita` is not called: no statement is executed and the store is left
as it was. -/
theorem handleAddCita_missing_fields {σ : Type} (decode : String → Except String Cita)
    (drv : Driver σ) (s : σ) (r : Request) (c : Cita)
    (hm : r.method = MethodPost) (hd : decode r.body = .ok c)
    (hmiss : c.Nombres = "" ∨ c.Apellidos = "" ∨ c.FechaCita.IsZero = true) :
    (handleAddCita decode drv s r).response =
        httpError "Faltan campos obligatorios (Nombres, Apellidos, Fecha de Cita)" 400 ∧
      (handleAddCita decode drv s r).response.status = 400 ∧
      (handleAddCita decode drv s r).db = s ∧
      (handleAddCita decode (counting drv) (s, 0) r).db.2 = 0 := by
  have hmm : ¬ r.method ≠ MethodPost := by simp [hm]
  have key : ∀ {τ : Type} (d : Driver τ) (t : τ), handleAddCita decode d t r =
      ⟨httpError "Faltan campos obligatorios (Nombres, Apellidos, Fecha de Cita)" 400, [], t⟩ := by
    intro τ d t
    unfold handleAddCita
    rw [if_neg hmm, hd]
    simp only [if_pos hmiss]
    rfl
  rw [key drv s, key (counting drv) (s, 0)]
  exact ⟨rfl, rfl, rfl, rfl⟩

/-- C3: a request whose method is not POST gets 405 and nothing else happens: the outcome
is the same for every decoder and every body (the body is not decoded), no statement is
executed and the store is left as it was. -/
theorem handleAddCita_method_not_allowed {σ : Type} (decode : String → Except String Cita)
    (drv : Driver σ) (s : σ) (r : Request) (hm : r.method ≠ MethodPost) :
    (handleAddCita decode drv s r).response = httpError "Método no permitido" 405 ∧
      (handleAddCita decode drv s r).response.status = 405 ∧
      (handleAddCita decode drv s r).log = [] ∧
      (handleAddCita decode drv s r).db = s ∧
      (handleAddCita decode (counting drv) (s, 0) r).db.2 = 0 ∧
      ∀ (decode2 : String → Except String Cita) (body2 : String),
        (handleAddCita decode2 drv s ⟨r.method, body2⟩).response =
          (handleAddCita decode drv s r).response := by
  have key : ∀ {τ : Type} (dec : String → Except String Cita) (d : Driver τ) (t : τ)
      (b : String), handleAddCita dec d t ⟨r.method, b⟩ =
        ⟨httpError "Método no permitido" 405, [], t⟩ := by
    intro τ dec d t b
    unfold handleAddCita
    rw [if_pos hm]
    rfl
  have hr : r = ⟨r.method, r.body⟩ := rfl
  rw [hr, key decode drv s, key decode (counting drv) (s, 0)]
  exact ⟨rfl, rfl, rfl, rfl, rfl, fun d2 b2 => by rw [key d2 drv s b2]⟩

/-- C4: a POST whose body fails to decode gets 400 with a body that contains the decoder
error text; `addCita` is not called: no statement is executed and the store is left as it
was. -/
theorem handleAddCita_decode_error {σ : Type} (decode : String → Except String Cita)
    (drv : Driver σ) (s : σ) (r : Request) (e : String)
    (hm : r.method = MethodPost) (hd : decode r.body = .error e) :
    (handleAddCita decode drv s r).response.status = 400 ∧
      (handleAddCita decode drv s r).response.body =
        .text ("Error al decodificar JSON: " ++ e ++ "\n") ∧
      e.data <:+: ("Error al decodificar JSON: " ++ e ++ "\n").data ∧
      (handleAddCita decode drv s r).db = s ∧
      (handleAddCita decode (counting drv) (s, 0) r).db.2 = 0 := by
  have hmm : ¬ r.method ≠ MethodPost := by simp [hm]
  have key : ∀ {τ : Type} (d : Driver τ) (t : τ), handleAddCita decode d t r =
      ⟨httpError ("Error al decodificar JSON: " ++ e) 400, [], t⟩ := by
    intro τ d t
    unfold handleAddCita
    rw [if_neg hmm, hd]
    rfl
  rw [key drv s, key (counting drv) (s, 0)]
  refine ⟨rfl, rfl, ?_, rfl, rfl⟩
  exact ⟨"Error al decodificar JSON: ".data, "\n".data, by simp [String.data_append]⟩

/-- C5: when `addCita` fails on a valid POST the client gets 500 with the fixed generic
body: for any two stores failing with any two errors on the same request the responses are
identical, and each error text goes to the server log only. -/
theorem handleAddCita_store_error_opaque {σ τ : Type} (decode : String → Except String Cita)
    (drv1 : Driver σ) (s1 : σ) (drv2 : Driver τ) (s2 : τ) (r : Request) (c : Cita)
    (e1 e2 : String) (hm : r.method = MethodPost) (hd : decode r.body = .ok c)
    (hn : c.Nombres ≠ "") (ha : c.Apellidos ≠ "") (hf : c.FechaCita.IsZero = false)
    (h1 : (addCita drv1 s1 c).1 = .error e1) (h2 : (addCita drv2 s2 c).1 = .error e2) :
    (handleAddCita decode drv1 s1 r).response = (handleAddCita decode drv2 s2 r).response ∧
      (handleAddCita decode drv1 s1 r).response =
        httpError "Error interno del servidor al guardar la cita" 500 ∧
      (handleAddCita decode drv1 s1 r).response.status = 500 ∧
      (handleAddCita decode drv1 s1 r).log = ["Error al añadir cita a la DB: " ++ e1] ∧
      (handleAddCita decode drv2 s2 r).log = ["Error al añadir cita a la DB: " ++ e2] := by
  have hv : ¬ (c.Nombres = "" ∨ c.Apellidos = "" ∨ c.FechaCita.IsZero = true) := by
    simp [hn, ha, hf]
  have hmm : ¬ r.method ≠ MethodPost := by simp [hm]
  have k1 : handleAddCita decode drv1 s1 r =
      ⟨httpError "Error interno del servidor al guardar la cita" 500,
        ["Error al añadir cita a la DB: " ++ e1], (addCita drv1 s1 c).2⟩ := by
    unfold handleAddCita
    rw [if_neg hmm, hd]
    simp only [if_neg hv]
    split
    · rename_i h; rw [h] at h1; simp only [Except.error.injEq] at h1; subst h1; rw [h]; rfl
    · rename_i h; rw [h] at h1; exact absurd h1 (by simp)
  have k2 : handleAddCita decode drv2 s2 r =
      ⟨httpError "Error interno del servidor al guardar la cita" 500,
        ["Error al añadir cita a la DB: " ++ e2], (addCita drv2 s2 c).2⟩ := by
    unfold handleAddCita
    rw [if_neg hmm, hd]
    simp only [if_neg hv]
    split
    · rename_i h; rw [h] at h2; simp only [Except.error.injEq] at h2; subst h2; rw [h]; rfl
    · rename_i h; rw [h] at h2; exact absurd h2 (by simp)
  rw [k1, k2]
  exact ⟨rfl, rfl, rfl, rfl, rfl⟩

/-- C2 at the body of the specification, whose `nombres` is empty. -/
theorem handleAddCita_missing_fields_witness :
    (handleAddCita decodeCita sqlite readyStore requestNoNombres).response =
        httpError "Faltan campos obligatorios (Nombres, Apellidos, Fecha de Cita)" 400 ∧
      (handleAddCita decodeCita sqlite readyStore requestNoNombres).response.status = 400 ∧
      (handleAddCita decodeCita sqlite readyStore requestNoNombres).db = readyStore ∧
      (handleAddCita decodeCita (counting sqlite) (readyStore, 0) requestNoNombres).db.2 = 0 :=
  handleAddCita_missing_fields decodeCita sqlite readyStore requestNoNombres
    { Cita.zero with Apellidos := "Lopez", FechaCita := ⟨63871322400, 0, 0⟩ } rfl rfl
    (Or.inl rfl)

/-- C3 at a GET carrying a valid payload. -/
theorem handleAddCita_method_not_allowed_witness :
    (handleAddCita decodeCita sqlite readyStore requestGet).response.status = 405 ∧
      (handleAddCita decodeCita sqlite readyStore requestGet).db = readyStore :=
  have h := handleAddCita_method_not_allowed decodeCita sqlite readyStore requestGet (by decide)
  ⟨h.2.1, h.2.2.2.1⟩

/-- C4 at the body `not json`. -/
theorem handleAddCita_decode_error_witness :
    (handleAddCita decodeCita sqlite readyStore requestNotJson).response.status = 400 ∧
      (handleAddCita decodeCita sqlite readyStore requestNotJson).response.body =
        .text ("Error al decodificar JSON: " ++
          "invalid character \x27o\x27 in literal null (expecting \x27u\x27)\n") ∧
      (handleAddCita decodeCita sqlite readyStore requestNotJson).db = readyStore :=
  have h := handleAddCita_decode_error decodeCita sqlite readyStore requestNotJson
    "invalid character \x27o\x27 in literal null (expecting \x27u\x27)" rfl (by rfl)
  ⟨h.1, h.2.1, h.2.2.2.1⟩

/-- C5 at two stores failing differently: a disk error on one, a closed handle on the other. -/
theorem handleAddCita_store_error_opaque_witness :
    (handleAddCita decodeCita sqlite { readyStore with execFault := some "disk I/O error" }
        requestMinimal).response =
      (handleAddCita decodeCita sqlite closedStore requestMinimal).response ∧
    (handleAddCita decodeCita sqlite { readyStore with execFault := some "disk I/O error" }
        requestMinimal).log =
      ["Error al añadir cita a la DB: error al insertar cita: disk I/O error"] ∧
    (handleAddCita decodeCita sqlite closedStore requestMinimal).log =
      ["Error al añadir cita a la DB: error al insertar cita: sql: database is closed"] :=
  have h := handleAddCita_store_error_opaque decodeCita sqlite
    { readyStore with execFault := some "disk I/O error" } sqlite closedStore requestMinimal
    citaMinimal "error al insertar cita: disk I/O error"
    "error al insertar cita: sql: database is closed" rfl rfl (by decide) (by decide) rfl rfl rfl
  ⟨h.1, h.2.2.2.1, h.2.2.2.2⟩

/-! ## The SQLite store -/

theorem insertSQL_ne_createTableSQL : insertSQL ≠ createTableSQL := by decide

theorem notNullViolation_insertArgs (c : Cita) : notNullViolation columns (insertArgs c) = none := by
  simp [notNullViolation, columns, insertArgs]

theorem foldl_max_ge (l : List Nat) (a : Nat) : a ≤ l.foldl max a ∧ ∀ x ∈ l, x ≤ l.foldl max a := by
  induction l generalizing a with
  | nil => simp
  | cons y ys ih =>
    simp only [List.foldl_cons, List.mem_cons, forall_eq_or_imp]
    obtain ⟨h1, h2⟩ := ih (max a y)
    refine ⟨by omega, by omega, h2⟩

theorem Table.id_le_highWater (t : Table) (r : Row) (h : r ∈ t.rows) : r.id ≤ t.highWater := by
  unfold Table.highWater
  exact (foldl_max_ge _ _).2 r.id (List.mem_map_of_mem _ h)

/-- `addCita` on a healthy SQLite store inserts one row holding the nine bound values and
returns the next rowid. -/
theorem addCita_sqlite_healthy (w : Sqlite) (t : Table) (c : Cita) (ho : w.opened = true)
    (hf : w.execFault = none) (ht : w.table = some t) (hfull : t.highWater < maxRowid) :
    addCita sqlite w c =
      (.ok ((t.highWater + 1 : Nat) : Int),
        { w with table := some ⟨t.rows ++ [⟨t.highWater + 1, insertArgs c⟩], t.highWater + 1⟩ }) := by
  have hlen : ¬ (insertArgs c).length ≠ columns.length := by simp [insertArgs, columns]
  have hfull' : ¬ t.highWater ≥ maxRowid := by omega
  simp only [addCita, sqlite, Sqlite.exec, ho, hf, Bool.true_eq_false, if_false,
    insertSQL_ne_createTableSQL, if_true, ht, Table.insert, if_neg hlen,
    notNullViolation_insertArgs, if_neg hfull']

/-- When `addCita` succeeds on the SQLite store, the store was healthy. -/
theorem addCita_sqlite_ok (w : Sqlite) (c : Cita) (id : Int)
    (h : (addCita sqlite w c).1 = .ok id) : w.Healthy := by
  unfold Sqlite.Healthy
  cases ho : w.opened
  · simp [addCita, sqlite, Sqlite.exec, ho] at h
  · cases hf : w.execFault
    · cases ht : w.table
      · simp [addCita, sqlite, Sqlite.exec, ho, hf, ht, insertSQL_ne_createTableSQL] at h
      · rename_i t
        refine ⟨rfl, rfl, t, rfl, ?_⟩
        by_contra hfull
        have hfull' : t.highWater ≥ maxRowid := by omega
        have hlen : ¬ (insertArgs c).length ≠ columns.length := by simp [insertArgs, columns]
        simp [addCita, sqlite, Sqlite.exec, ho, hf, ht, insertSQL_ne_createTableSQL,
          Table.insert, hlen, notNullViolation_insertArgs, hfull'] at h
    · simp [addCita, sqlite, Sqlite.exec, ho, hf] at h

theorem storedFecha_after_insert (w : Sqlite) (t : Table) (c : Cita) :
    Sqlite.storedFecha
      { w with table := some ⟨t.rows ++ [⟨t.highWater + 1, insertArgs c⟩], t.highWater + 1⟩ }
      (t.highWater + 1) = some c.FechaCita.FormatRFC3339 := by
  have hnone : t.rows.find? (fun r => decide (r.id = t.highWater + 1)) = none := by
    rw [List.find?_eq_none]
    intro r hr
    have := Table.id_le_highWater t r hr
    simp only [decide_eq_true_eq]
    omega
  simp only [Sqlite.storedFecha, List.find?_append, hnone, Option.none_or, List.find?_cons,
    decide_True, List.getD_eq_getElem?_getD, insertArgs]
  rfl

/-- What `parseStrictRFC3339` accepts is what `time.Parse(time.RFC3339, _)` accepts. -/
theorem parseStrictRFC3339_ok (b : List Char) (t : Time) (h : parseStrictRFC3339 b = .ok t) :
    Parse b = some t := by
  unfold parseStrictRFC3339 at h
  cases hfast : parseRFC3339 b with
  | some t' =>
    rw [hfast] at h
    simp only [Except.ok.injEq] at h
    subst h
    simp [Parse, hfast]
  | none =>
    rw [hfast] at h
    cases hp : Parse b with
    | some t' =>
      rw [hp] at h
      simp only [Except.ok.injEq] at h
      rw [h]
    | none =>
      rw [hp] at h
      exact absurd h (by simp)

/-- A JSON string that `Time.UnmarshalJSON` accepts holds a text that `time.Parse` accepts
with the same result. -/
theorem UnmarshalJSON_string_ok (t0 t : Time) (text : List Char)
    (h : Time.UnmarshalJSON t0 (['"'] ++ text ++ ['"']) = .ok t) : Parse text = some t := by
  unfold Time.UnmarshalJSON at h
  have h1 : ¬ (['"'] ++ text ++ ['"'] = ['n', 'u', 'l', 'l']) := by
    intro hc
    simp only [List.singleton_append, List.cons_append, List.cons.injEq] at hc
    exact absurd hc.1 (by decide)
  have h2 : ¬ ((['"'] ++ text ++ ['"']).length < 2 ∨ (['"'] ++ text ++ ['"']).head? ≠ some '"' ∨
      (['"'] ++ text ++ ['"']).getLast? ≠ some '"') := by
    have hl : (['"'] ++ text ++ ['"']).getLast? = some '"' := List.getLast?_concat _
    rw [hl]
    simp
  have h3 : ((['"'] ++ text ++ ['"']).drop 1).dropLast = text := by
    simp
  rw [if_neg h1, if_neg h2, h3] at h
  exact parseStrictRFC3339_ok text t h

/-- C6 (amended): for every `fecha_cita` that the JSON decoder accepts through
`Time.UnmarshalJSON` (the strict RFC 3339 form or any form that only the lenient fall-back
of `time.Parse` takes: a fractional second, a comma before it, a one-digit hour, a zone
offset of 24 hours), the zone `±24:60` apart, the text that a successful `addCita` stores
for it, read back from the row and parsed in the same format, is the same instant with the
same zone offset and with the fractional second dropped; it is the identical timestamp
exactly when the accepted value has no fractional second. -/
theorem fecha_cita_roundtrip_seconds (w : Sqlite) (c : Cita) (text : String) (id : Int)
    (t0 : Time)
    (hp : Time.UnmarshalJSON t0 (['"'] ++ text.data ++ ['"']) = .ok c.FechaCita)
    (hz1 : c.FechaCita.offset ≠ 90000) (hz2 : c.FechaCita.offset ≠ -90000)
    (hadd : (addCita sqlite w c).1 = .ok id) :
    ∃ stored : String, (addCita sqlite w c).2.storedFecha id.toNat = some stored ∧
      stored = c.FechaCita.FormatRFC3339 ∧
      Time.ParseRFC3339 stored = some ⟨c.FechaCita.sec, 0, c.FechaCita.offset⟩ ∧
      (Time.ParseRFC3339 stored = some c.FechaCita ↔ c.FechaCita.nsec = 0) := by
  obtain ⟨ho, hf, t, ht, hfull⟩ := addCita_sqlite_ok w c id hadd
  have hk := addCita_sqlite_healthy w t c ho hf ht hfull
  rw [hk] at hadd ⊢
  simp only [Except.ok.injEq] at hadd
  subst hadd
  have hrt := Parse_format_roundtrip text.data c.FechaCita
    (UnmarshalJSON_string_ok t0 c.FechaCita text.data hp) hz1 hz2
  have hrt' : Time.ParseRFC3339 c.FechaCita.FormatRFC3339 =
      some ⟨c.FechaCita.sec, 0, c.FechaCita.offset⟩ := hrt
  refine ⟨c.FechaCita.FormatRFC3339, ?_, rfl, hrt', ?_⟩
  · simp only [Int.toNat_ofNat]
    exact storedFecha_after_insert w t c
  · rw [hrt']
    constructor
    · intro h
      simp only [Option.some.injEq] at h
      rw [← h]
    · intro h
      cases hc : c.FechaCita
      rw [hc] at h
      simp only at h
      simp [h]

/-- C6 (amended) at the timestamp of the specification, `2025-06-15T09:30:00-05:00`. -/
theorem fecha_cita_roundtrip_seconds_witness :
    ∃ stored : String, (addCita sqlite readyStore citaMinimal).2.storedFecha (1 : Int).toNat =
        some stored ∧
      stored = citaMinimal.FechaCita.FormatRFC3339 ∧
      Time.ParseRFC3339 stored =
        some ⟨citaMinimal.FechaCita.sec, 0, citaMinimal.FechaCita.offset⟩ ∧
      (Time.ParseRFC3339 stored = some citaMinimal.FechaCita ↔ citaMinimal.FechaCita.nsec = 0) :=
  fecha_cita_roundtrip_seconds readyStore citaMinimal "2025-06-15T09:30:00-05:00" 1 Time.zero
    (by rfl) (by decide) (by decide) (by rfl)

/-- C6 (as stated) fails: `2025-06-15T09:30:00.5-05:00` is decoded to a non-zero time, the
handler accepts it with 200, the row holds `2025-06-15T09:30:00-05:00`, and parsing that
back gives a time that differs from the accepted one (the half second is gone). Also
`2025-06-15T09:30:00+24:60` is decoded to a non-zero time and accepted with 200; the row
holds `2025-06-15T09:30:00+25:00`, which does not parse back at all. -/
theorem fecha_cita_fraction_lost :
    decodeCita requestFraction.body =
        .ok { Cita.zero with Nombres := "Ana", Apellidos := "Lopez",
                             FechaCita := ⟨63885594600, 500000000, -18000⟩ } ∧
      (⟨63885594600, 500000000, -18000⟩ : Time).IsZero = false ∧
      (handleAddCita decodeCita sqlite readyStore requestFraction).response.status = 200 ∧
      (handleAddCita decodeCita sqlite readyStore requestFraction).db.storedFecha 1 =
        some "2025-06-15T09:30:00-05:00" ∧
      Time.ParseRFC3339 "2025-06-15T09:30:00-05:00" = some ⟨63885594600, 0, -18000⟩ ∧
      Time.ParseRFC3339 "2025-06-15T09:30:00-05:00" ≠
        some ⟨63885594600, 500000000, -18000⟩ ∧
      decodeCita requestZone2460.body =
        .ok { Cita.zero with Nombres := "Ana", Apellidos := "Lopez",
                             FechaCita := ⟨63885486600, 0, 90000⟩ } ∧
      (⟨63885486600, 0, 90000⟩ : Time).IsZero = false ∧
      (handleAddCita decodeCita sqlite readyStore requestZone2460).response.status = 200 ∧
      (handleAddCita decodeCita sqlite readyStore requestZone2460).db.storedFecha 1 =
        some "2025-06-15T09:30:00+25:00" ∧
      Time.ParseRFC3339 "2025-06-15T09:30:00+25:00" = none := by
  refine ⟨by rfl, by rfl, by rfl, by rfl, by rfl, by decide, by rfl, by rfl, by rfl, by rfl,
    by rfl⟩

theorem foldl_max_eq (l : List Nat) (a : Nat) (h : ∀ x ∈ l, x ≤ a) : l.foldl max a = a := by
  induction l with
  | nil => rfl
  | cons y ys ih =>
    simp only [List.mem_cons, forall_eq_or_imp] at h
    simp only [List.foldl_cons]
    have : max a y = a := by omega
    rw [this]
    exact ih h.2

theorem Table.highWater_after_insert (t : Table) (args : List SqlValue) :
    Table.highWater ⟨t.rows ++ [⟨t.highWater + 1, args⟩], t.highWater + 1⟩ = t.highWater + 1 := by
  generalize hh : t.highWater = h
  unfold Table.highWater
  apply foldl_max_eq
  intro x hx
  simp only [List.map_append, List.map_cons, List.map_nil, List.mem_append, List.mem_map,
    List.mem_singleton] at hx
  rcases hx with ⟨r, hr, rfl⟩ | rfl
  · have := Table.id_le_highWater t r hr
    show r.id ≤ h + 1
    omega
  · exact Nat.le_refl _

/-- When `addCita` fails on the SQLite store, the store is left as it was. -/
theorem addCita_sqlite_error (w : Sqlite) (c : Cita) (e : String)
    (h : (addCita sqlite w c).1 = .error e) : (addCita sqlite w c).2 = w := by
  by_cases hh : w.Healthy
  · obtain ⟨ho, hf, t, ht, hfull⟩ := hh
    rw [addCita_sqlite_healthy w t c ho hf ht hfull] at h
    exact absurd h (by simp)
  · clear h
    unfold Sqlite.Healthy at hh
    cases ho : w.opened
    · simp [addCita, sqlite, Sqlite.exec, ho]
    · cases hf : w.execFault
      · cases ht : w.table
        · simp [addCita, sqlite, Sqlite.exec, ho, hf, ht, insertSQL_ne_createTableSQL]
        · rename_i t
          have hfull : t.highWater ≥ maxRowid := by
            by_contra hc
            exact hh ⟨ho, hf, t, ht, by omega⟩
          have hlen : ¬ (insertArgs c).length ≠ columns.length := by simp [insertArgs, columns]
          simp [addCita, sqlite, Sqlite.exec, ho, hf, ht, insertSQL_ne_createTableSQL,
            Table.insert, hlen, notNullViolation_insertArgs, hfull]
      · simp [addCita, sqlite, Sqlite.exec, ho, hf]

/-- The id of the response that reports a stored appointment: the id itself when the
appointment was written to the body, none when the body stayed empty. -/
theorem Response.id_of_encode (id : Int) (c : Cita) :
    (Response.id ⟨StatusOK, [("Content-Type", "application/json")],
        (Encode [("message", .string "Cita agendada con éxito"), ("id", .int64 id),
          ("cita", .cita c)]).2⟩ = some id ∧ ∃ text, c.FechaCita.MarshalJSON = .ok text) ∨
      (Response.id ⟨StatusOK, [("Content-Type", "application/json")],
        (Encode [("message", .string "Cita agendada con éxito"), ("id", .int64 id),
          ("cita", .cita c)]).2⟩ = none ∧ ∃ e, c.FechaCita.MarshalJSON = .error e) := by
  cases hj : c.FechaCita.MarshalJSON with
  | ok text =>
    left
    rw [Encode_ok _ id c text hj]
    exact ⟨rfl, text, rfl⟩
  | error e =>
    right
    rw [Encode_error _ id c e hj]
    exact ⟨rfl, e, rfl⟩

/-- Every outcome of the handler on the SQLite store leaves the high water mark where it was
or one higher, and an id returned in the response is the new high water mark. -/
theorem handleAddCita_sqlite_step (decode : String → Except String Cita) (w : Sqlite)
    (r : Request) :
    w.highWater ≤ (handleAddCita decode sqlite w r).db.highWater ∧
      ∀ id : Int, (handleAddCita decode sqlite w r).response.id = some id →
        id = ((w.highWater + 1 : Nat) : Int) ∧
        (handleAddCita decode sqlite w r).db.highWater = w.highWater + 1 := by
  by_cases hm : r.method = MethodPost
  · cases hd : decode r.body with
    | error e =>
      have hmm : ¬ r.method ≠ MethodPost := by simp [hm]
      have key : handleAddCita decode sqlite w r =
          ⟨httpError ("Error al decodificar JSON: " ++ e) 400, [], w⟩ := by
        unfold handleAddCita
        rw [if_neg hmm, hd]
        rfl
      rw [key]
      exact ⟨Nat.le_refl _, fun id h => absurd h (by simp [Response.id, httpError])⟩
    | ok c =>
      by_cases hv : c.Nombres = "" ∨ c.Apellidos = "" ∨ c.FechaCita.IsZero = true
      · have hmm : ¬ r.method ≠ MethodPost := by simp [hm]
        have key : handleAddCita decode sqlite w r =
            ⟨httpError "Faltan campos obligatorios (Nombres, Apellidos, Fecha de Cita)" 400,
              [], w⟩ := by
          unfold handleAddCita
          rw [if_neg hmm, hd]
          simp only [if_pos hv]
          rfl
        rw [key]
        exact ⟨Nat.le_refl _, fun id h => absurd h (by simp [Response.id, httpError])⟩
      · have hn : c.Nombres ≠ "" := fun h => hv (Or.inl h)
        have ha : c.Apellidos ≠ "" := fun h => hv (Or.inr (Or.inl h))
        have hf : c.FechaCita.IsZero = false := by
          cases hz : c.FechaCita.IsZero
          · rfl
          · exact absurd (Or.inr (Or.inr hz)) hv
        rw [handleAddCita_valid decode sqlite w r c hm hd hn ha hf]
        by_cases hh : w.Healthy
        · obtain ⟨ho, hff, t, ht, hfull⟩ := hh
          rw [addCita_sqlite_healthy w t c ho hff ht hfull]
          have hw : w.highWater = t.highWater := by simp [Sqlite.highWater, ht]
          have hdb : Sqlite.highWater
              { w with table := some ⟨t.rows ++ [⟨t.highWater + 1, insertArgs c⟩],
                                  t.highWater + 1⟩ } = t.highWater + 1 :=
            Table.highWater_after_insert t _
          refine ⟨?_, ?_⟩
          · show w.highWater ≤ Sqlite.highWater _
            rw [hdb, hw]
            exact Nat.le_succ _
          · intro id hid
            have hid' : Response.id ⟨StatusOK, [("Content-Type", "application/json")],
                (Encode [("message", .string "Cita agendada con éxito"),
                  ("id", .int64 ((t.highWater + 1 : Nat) : Int)),
                  ("cita", .cita { c with ID := toInt ((t.highWater + 1 : Nat) : Int) })]).2⟩ =
                some id := hid
            rcases Response.id_of_encode ((t.highWater + 1 : Nat) : Int)
                { c with ID := toInt ((t.highWater + 1 : Nat) : Int) } with ⟨h1, _⟩ | ⟨h1, _⟩
            · rw [h1] at hid'
              simp only [Option.some.injEq] at hid'
              refine ⟨by rw [← hid', hw], ?_⟩
              show Sqlite.highWater _ = w.highWater + 1
              rw [hdb, hw]
            · rw [h1] at hid'
              exact absurd hid' (by simp)
        · cases hr : (addCita sqlite w c).1 with
          | ok id => exact absurd (addCita_sqlite_ok w c id hr) hh
          | error e =>
            have hs := addCita_sqlite_error w c e hr
            have hp : addCita sqlite w c = (.error e, w) := Prod.ext hr hs
            rw [hp]
            exact ⟨Nat.le_refl _, fun id h => absurd h (by simp [Response.id, httpError,
              StatusInternalServerError])⟩
  · have key : handleAddCita decode sqlite w r =
        ⟨httpError "Método no permitido" 405, [], w⟩ := by
      unfold handleAddCita
      rw [if_pos hm]
      rfl
    rw [key]
    exact ⟨Nat.le_refl _, fun id h => absurd h (by simp [Response.id, httpError])⟩

/-- Along a run, the store in which a request is handled has a high water mark at least as
large as every id returned before, and the response is the handler outcome on that store. -/
theorem serve_prior (decode : String → Except String Cita) :
    ∀ (arrivals : List Arrival) (w : Sqlite) (k : Nat) (wk : Sqlite) (rk : Response),
      (serve decode w arrivals)[k]? = some (wk, rk) →
      w.highWater ≤ wk.highWater ∧
      (∃ a, arrivals[k]? = some a ∧ wk.execFault = a.fault ∧
        rk = (handleAddCita decode sqlite wk a.request).response) ∧
      ∀ (i : Nat) (wi : Sqlite) (ri : Response) (id' : Int), i < k →
        (serve decode w arrivals)[i]? = some (wi, ri) → ri.id = some id' →
        id' ≤ (wk.highWater : Int) := by
  intro arrivals
  induction arrivals with
  | nil =>
    intro w k wk rk h
    simp [serve] at h
  | cons a as ih =>
    intro w k wk rk h
    have hstep := handleAddCita_sqlite_step decode { w with execFault := a.fault } a.request
    have hw' : Sqlite.highWater { w with execFault := a.fault } = w.highWater := rfl
    rw [hw'] at hstep
    obtain ⟨hmono, hid1⟩ := hstep
    cases k with
    | zero =>
      simp only [serve, List.getElem?_cons_zero, Option.some.injEq, Prod.mk.injEq] at h
      obtain ⟨h1, h2⟩ := h
      subst h1
      refine ⟨Nat.le_refl _, ⟨a, by simp, rfl, h2.symm⟩, ?_⟩
      intro i wi ri id' hi
      exact absurd hi (Nat.not_lt_zero i)
    | succ k =>
      simp only [serve, List.getElem?_cons_succ] at h
      obtain ⟨h1, h2, h3⟩ := ih _ k wk rk h
      refine ⟨Nat.le_trans hmono h1, ?_, ?_⟩
      · simpa using h2
      · intro i wi ri id' hi hget hid
        cases i with
        | zero =>
          simp only [serve, List.getElem?_cons_zero, Option.some.injEq, Prod.mk.injEq] at hget
          obtain ⟨_, hr⟩ := hget
          rw [← hr] at hid
          obtain ⟨he, hdb⟩ := hid1 id' hid
          rw [he]
          have : w.highWater + 1 ≤ wk.highWater := by rw [← hdb]; exact h1
          exact_mod_cast this
        | succ i =>
          simp only [serve, List.getElem?_cons_succ] at hget
          exact h3 i wi ri id' (by omega) hget hid

/-- C7 (amended): in every sequence of requests handled by one running instance, a request
with non-empty `nombres` and `apellidos` and a non-zero `fecha_cita` that marshals as JSON
gets status 200 exactly when the store insert succeeds (in particular whenever the store is
healthy), and then its id is a positive integer strictly greater than every id returned to
an earlier request of the sequence; when the insert fails it gets status 500 and no id. -/
theorem serve_ids_increase (decode : String → Except String Cita) (w : Sqlite)
    (arrivals : List Arrival) (k : Nat) (wk : Sqlite) (rk : Response) (a : Arrival) (c : Cita)
    (text : String)
    (hk : (serve decode w arrivals)[k]? = some (wk, rk)) (ha : arrivals[k]? = some a)
    (hm : a.request.method = MethodPost) (hd : decode a.request.body = .ok c)
    (hn : c.Nombres ≠ "") (hap : c.Apellidos ≠ "") (hf : c.FechaCita.IsZero = false)
    (hj : c.FechaCita.MarshalJSON = .ok text) :
    ((∃ id : Int, (addCita sqlite wk c).1 = .ok id ∧ wk.Healthy ∧ rk.status = 200 ∧
          rk.id = some id ∧ 0 < id ∧
          ∀ (i : Nat) (wi : Sqlite) (ri : Response) (id' : Int), i < k →
            (serve decode w arrivals)[i]? = some (wi, ri) → ri.id = some id' → id' < id) ∨
      (∃ e : String, (addCita sqlite wk c).1 = .error e ∧ ¬ wk.Healthy ∧ rk.status = 500 ∧
          rk.id = none)) := by
  obtain ⟨_, ⟨a', ha', _, hr⟩, hprior⟩ := serve_prior decode arrivals w k wk rk hk
  rw [ha] at ha'
  simp only [Option.some.injEq] at ha'
  subst ha'
  rw [handleAddCita_valid decode sqlite wk a.request c hm hd hn hap hf] at hr
  by_cases hh : wk.Healthy
  · left
    obtain ⟨ho, hff, t, ht, hfull⟩ := hh
    have hadd := addCita_sqlite_healthy wk t c ho hff ht hfull
    rw [hadd] at hr
    have hw : wk.highWater = t.highWater := by simp [Sqlite.highWater, ht]
    have henc := Encode_ok "Cita agendada con éxito" ((t.highWater + 1 : Nat) : Int)
      { c with ID := toInt ((t.highWater + 1 : Nat) : Int) } text hj
    have hr' : rk = ⟨StatusOK, [("Content-Type", "application/json")],
        .json [("message", .string "Cita agendada con éxito"),
          ("id", .int64 ((t.highWater + 1 : Nat) : Int)),
          ("cita", .cita { c with ID := toInt ((t.highWater + 1 : Nat) : Int) })]⟩ := by
      rw [hr]
      show (⟨StatusOK, [("Content-Type", "application/json")], (Encode _).2⟩ : Response) = _
      rw [henc]
    refine ⟨((t.highWater + 1 : Nat) : Int), by rw [hadd], ⟨ho, hff, t, ht, hfull⟩, ?_, ?_, ?_, ?_⟩
    · rw [hr']; rfl
    · rw [hr']; rfl
    · omega
    · intro i wi ri id' hi hget hid
      have := hprior i wi ri id' hi hget hid
      rw [hw] at this
      omega
  · right
    cases hres : (addCita sqlite wk c).1 with
    | ok id => exact absurd (addCita_sqlite_ok wk c id hres) hh
    | error e =>
      have hs := addCita_sqlite_error wk c e hres
      have hp : addCita sqlite wk c = (.error e, wk) := Prod.ext hres hs
      rw [hp] at hr
      refine ⟨e, rfl, hh, ?_, ?_⟩
      · rw [hr]; rfl
      · rw [hr]; rfl

/-- C7 (amended) at the second of two valid POSTs handled in a row. -/
theorem serve_ids_increase_witness :
    ((∃ id : Int, (addCita sqlite
            (handleAddCita decodeCita sqlite readyStore requestMinimal).db citaMinimal).1 = .ok id ∧
          (handleAddCita decodeCita sqlite readyStore requestMinimal).db.Healthy ∧
          (handleAddCita decodeCita sqlite
            (handleAddCita decodeCita sqlite readyStore requestMinimal).db
            requestMinimal).response.status = 200 ∧
          (handleAddCita decodeCita sqlite
            (handleAddCita decodeCita sqlite readyStore requestMinimal).db
            requestMinimal).response.id = some id ∧ 0 < id ∧
          ∀ (i : Nat) (wi : Sqlite) (ri : Response) (id' : Int), i < 1 →
            (serve decodeCita readyStore [⟨requestMinimal, none⟩, ⟨requestMinimal, none⟩])[i]? =
              some (wi, ri) → ri.id = some id' → id' < id) ∨
      (∃ e : String, (addCita sqlite
            (handleAddCita decodeCita sqlite readyStore requestMinimal).db citaMinimal).1 =
            .error e ∧
          ¬ (handleAddCita decodeCita sqlite readyStore requestMinimal).db.Healthy ∧
          (handleAddCita decodeCita sqlite
            (handleAddCita decodeCita sqlite readyStore requestMinimal).db
            requestMinimal).response.status = 500 ∧
          (handleAddCita decodeCita sqlite
            (handleAddCita decodeCita sqlite readyStore requestMinimal).db
            requestMinimal).response.id = none)) :=
  serve_ids_increase decodeCita readyStore [⟨requestMinimal, none⟩, ⟨requestMinimal, none⟩] 1
    (handleAddCita decodeCita sqlite readyStore requestMinimal).db
    (handleAddCita decodeCita sqlite (handleAddCita decodeCita sqlite readyStore requestMinimal).db
      requestMinimal).response
    ⟨requestMinimal, none⟩ citaMinimal "\"2025-06-15T09:30:00-05:00\"" (by rfl) (by rfl) (by rfl)
    (by rfl) (by decide) (by decide) (by rfl) (by rfl)

/-- C7 (as stated) fails: of three valid POSTs handled in a row by one instance, the second,
handled while the store reports a disk error, gets status 500 and no id, not 200; the first
and third get 200 with ids 1 and 2. And a valid POST whose `fecha_cita` has a zone offset
of 24 hours, handled on a store without failure, gets 200 with no id. -/
theorem serve_valid_request_gets_500 :
    decodeCita requestMinimal.body = .ok citaMinimal ∧
      citaMinimal.Nombres ≠ "" ∧ citaMinimal.Apellidos ≠ "" ∧
      citaMinimal.FechaCita.IsZero = false ∧
      (serve decodeCita readyStore arrivalsWithFault).map (fun p => p.2.status) =
        [200, 500, 200] ∧
      (serve decodeCita readyStore arrivalsWithFault).map (fun p => p.2.id) =
        [some 1, none, some 2] ∧
      decodeCita requestZone24.body = .ok citaZone24 ∧
      citaZone24.Nombres ≠ "" ∧ citaZone24.Apellidos ≠ "" ∧
      citaZone24.FechaCita.IsZero = false ∧
      (serve decodeCita readyStore [⟨requestZone24, none⟩]).map (fun p => (p.2.status, p.2.id)) =
        [(200, none)] := by
  refine ⟨by rfl, by decide, by decide, by rfl, by rfl, by rfl, by rfl, by decide, by decide,
    by rfl, by rfl⟩

theorem notNullViolation_of_null : ∀ (cols : List String) (args : List SqlValue),
    cols.length = args.length → SqlValue.null ∈ args → ∃ col, notNullViolation cols args = some col := by
  intro cols
  induction cols with
  | nil =>
    intro args hlen hmem
    cases args with
    | nil => exact absurd hmem (by simp)
    | cons v vs => simp at hlen
  | cons col cols ih =>
    intro args hlen hmem
    cases args with
    | nil => exact absurd hmem (by simp)
    | cons v vs =>
      by_cases hv : v = SqlValue.null
      · exact ⟨col, by simp [notNullViolation, hv]⟩
      · have hmem' : SqlValue.null ∈ vs := by
          rcases List.mem_cons.mp hmem with h | h
          · exact absurd h.symm hv
          · exact h
        obtain ⟨c', hc'⟩ := ih vs (by simpa using hlen) hmem'
        exact ⟨c', by simp [notNullViolation, hv, hc']⟩

/-- C8 (amended): the `NOT NULL` columns reject `NULL` only, and `addCita` never binds
`NULL`. For every appointment, one whose `tramite`, `institucion`, `telefono`,
`correo_electronico`, `cedula` or `direccion` is the empty string included, `addCita` on a
healthy store succeeds and appends exactly one row holding the nine values as given (the
empty strings as empty text), and the handler answers a valid POST carrying it with 200. -/
theorem addCita_accepts_empty_text (decode : String → Except String Cita) (w : Sqlite)
    (t : Table) (r : Request) (c : Cita)
    (ho : w.opened = true) (hfa : w.execFault = none) (ht : w.table = some t)
    (hfull : t.highWater < maxRowid)
    (hm : r.method = MethodPost) (hd : decode r.body = .ok c)
    (hn : c.Nombres ≠ "") (ha : c.Apellidos ≠ "") (hf : c.FechaCita.IsZero = false) :
    (addCita sqlite w c).1 = .ok ((t.highWater + 1 : Nat) : Int) ∧
      (addCita sqlite w c).2.table =
        some ⟨t.rows ++ [⟨t.highWater + 1,
          [.text c.Tramite, .text c.Institucion, .text c.Nombres, .text c.Apellidos,
           .text c.Telefono, .text c.CorreoElectronico, .text c.Cedula, .text c.Direccion,
           .text c.FechaCita.FormatRFC3339]⟩], t.highWater + 1⟩ ∧
      (handleAddCita decode sqlite w r).response.status = 200 ∧
      (∀ args : List SqlValue, args.length = 9 → SqlValue.null ∈ args →
        ∃ e, t.insert args = .error e) := by
  have hadd := addCita_sqlite_healthy w t c ho hfa ht hfull
  refine ⟨by rw [hadd], by rw [hadd]; rfl, ?_, ?_⟩
  · rw [handleAddCita_valid decode sqlite w r c hm hd hn ha hf, hadd]
    rfl
  · intro args hlen hnull
    have hlen' : ¬ args.length ≠ columns.length := by simp [columns, hlen]
    obtain ⟨col, hcol⟩ := notNullViolation_of_null columns args (by simp [columns, hlen]) hnull
    exact ⟨"NOT NULL constraint failed: citas." ++ col, by
      simp only [Table.insert, if_neg hlen', hcol]⟩

/-- C8 (amended) at `requestMinimal`, whose six unvalidated text fields are empty. -/
theorem addCita_accepts_empty_text_witness :
    (addCita sqlite readyStore citaMinimal).1 = .ok ((0 + 1 : Nat) : Int) ∧
      (addCita sqlite readyStore citaMinimal).2.table =
        some ⟨[] ++ [⟨0 + 1,
          [.text "", .text "", .text "Ana", .text "Lopez", .text "", .text "", .text "",
           .text "", .text citaMinimal.FechaCita.FormatRFC3339]⟩], 0 + 1⟩ ∧
      (handleAddCita decodeCita sqlite readyStore requestMinimal).response.status = 200 ∧
      (∀ args : List SqlValue, args.length = 9 → SqlValue.null ∈ args →
        ∃ e, (⟨[], 0⟩ : Table).insert args = .error e) :=
  addCita_accepts_empty_text decodeCita readyStore ⟨[], 0⟩ requestMinimal citaMinimal rfl rfl rfl
    (by decide) (by rfl) (by rfl) (by decide) (by decide) (by rfl)

/-- C8 (as stated) fails: the appointment of `requestMinimal` has empty `tramite`,
`institucion`, `telefono`, `correo_electronico`, `cedula` and `direccion`; `addCita` on it
succeeds with id 1 and the table then holds one row with those empty texts. -/
theorem addCita_empty_fields_inserted :
    citaMinimal.Tramite = "" ∧ citaMinimal.Institucion = "" ∧ citaMinimal.Telefono = "" ∧
      citaMinimal.CorreoElectronico = "" ∧ citaMinimal.Cedula = "" ∧
      citaMinimal.Direccion = "" ∧
      (addCita sqlite readyStore citaMinimal).1 = .ok 1 ∧
      (addCita sqlite readyStore citaMinimal).2.table =
        some ⟨[⟨1, [.text "", .text "", .text "Ana", .text "Lopez", .text "", .text "",
          .text "", .text "", .text "2025-06-15T09:30:00-05:00"]⟩], 1⟩ := by
  refine ⟨rfl, rfl, rfl, rfl, rfl, rfl, by rfl, by rfl⟩

/-! ## Start-up -/

/-- `initDB` on the SQLite store: `sql.Open` finds no driver registered as `sqlite3`, so
`initDB` returns the open error, logs nothing, and leaves the store without a handle. -/
theorem initDB_sqlite (w : Sqlite) :
    initDB sqlite w =
      (some "error al abrir la base de datos: sql: unknown driver \"sqlite3\" (forgotten import?)",
        [], { w with opened := false }) := by
  rfl

/-- C9: no exit path of `initDB` followed by `main` leaves an opened store unclosed. On
every start-up, whatever the state of the database file, the requests waiting and the
listener, `sql.Open` fails (no start-up failure happens after a successful open), `main`
logs the cause and exits with code 1, and at the exit no handle is open: the number of open
handles is what it was before the run, `db` is not an open handle, and the table is
untouched. -/
theorem main_leaves_no_store_open (decode : String → Except String Cita) (w : Sqlite)
    (requests : List Request) (listenErr : String) :
    (sqlite.openDB w "sqlite3" dbFileName).1 =
        .error "sql: unknown driver \"sqlite3\" (forgotten import?)" ∧
      (main decode sqlite w requests listenErr).code = 1 ∧
      (main decode sqlite w requests listenErr).log =
        ["No se pudo inicializar la base de datos: error al abrir la base de datos: " ++
          "sql: unknown driver \"sqlite3\" (forgotten import?)"] ∧
      (main decode sqlite w requests listenErr).state.handles = w.handles ∧
      (main decode sqlite w requests listenErr).state.opened = false ∧
      (main decode sqlite w requests listenErr).state.table = w.table := by
  have hm : main decode sqlite w requests listenErr =
      ⟨1, ["No se pudo inicializar la base de datos: error al abrir la base de datos: " ++
          "sql: unknown driver \"sqlite3\" (forgotten import?)"], { w with opened := false }⟩ := by
    unfold main
    rw [initDB_sqlite]
    rfl
  rw [hm]
  exact ⟨rfl, rfl, rfl, rfl, rfl, rfl⟩

/-- C10 (the code at the failing input): on every store state, the first run with no
database file and a run against a file that already holds the table included, `initDB`
returns the error of `sql.Open`, and so does a second run after it; no run returns without
an error. The table and its rows are left as they were. -/
theorem initDB_returns_open_error (w : Sqlite) :
    (initDB sqlite w).1 =
        some ("error al abrir la base de datos: " ++
          "sql: unknown driver \"sqlite3\" (forgotten import?)") ∧
      (initDB sqlite (initDB sqlite w).2.2).1 =
        some ("error al abrir la base de datos: " ++
          "sql: unknown driver \"sqlite3\" (forgotten import?)") ∧
      (initDB sqlite w).2.2.table = w.table ∧
      (initDB sqlite (initDB sqlite w).2.2).2.2.table = w.table ∧
      (initDB sqlite freshStore).1 ≠ none ∧
      (initDB sqlite (initDB sqlite usedStore).2.2).1 ≠ none := by
  rw [initDB_sqlite, initDB_sqlite]
  refine ⟨rfl, rfl, rfl, rfl, by simp [initDB_sqlite], by simp [initDB_sqlite]⟩

end CitasGOB
